import Mathlib

/-!
# libhowler: the Linux USB layer (`usb_linux.c`)

A shallow embedding of `is_howler`, `howler_init`, `howler_destroy` and
`howler_sendrcv`.  The libusb calls are the boundary of the program: every
status code libusb hands back is an input of the model, and the calls the
program makes are recorded, in order and with their arguments, in a call
trace.  Reading a device descriptor is the one call left out of the traces:
the descriptor is a field of the device.

Pointers are natural numbers (addresses), `0` being `NULL`.  C `int` status
codes are integers.  The loops over the device list walk the list itself; the
`unsigned int` index of the source does not wrap on a list of fewer than
`2 ^ 32` devices, and longer lists are outside this model.  What `howler.h` declares (the vendor id, the product id
table, the `HOWLER_*` result codes) is not part of `usb_linux.c` and is taken
as a parameter, the structure `HowlerH`.
-/

namespace Howler

/-! ## Data model -/

/-- The two descriptor fields that `is_howler` reads. -/
structure libusb_device_descriptor where
  idVendor : Nat
  idProduct : Nat
deriving DecidableEq, Repr

/-- A `libusb_device *`: its address and the descriptor that
`libusb_get_device_descriptor` reports for it. -/
structure libusb_device where
  addr : Nat
  desc : libusb_device_descriptor
deriving DecidableEq, Repr

/-- One `howler_device`: the raw device, its open handle, and the six LED
banks (one number per bank, `0` for a bank that is all zero bytes). -/
structure howler_device where
  usb_device : libusb_device
  usb_handle : Nat
  led_banks : List Nat
deriving DecidableEq, Repr

/-- The `howler_context`.  `devices` is the `malloc`ed array: a slot holds
`none` as long as nothing was written to it. -/
structure howler_context where
  usb_ctx : Nat
  nDevices : Nat
  devices : List (Option howler_device)
deriving DecidableEq, Repr

/-- What `usb_linux.c` takes from `howler.h`. `MAX_HOWLER_DEVICE_IDS` is the
length of the `HOWLER_DEVICE_ID` table. -/
structure HowlerH where
  HOWLER_VENDOR_ID : Nat
  HOWLER_DEVICE_ID : List Nat
  HOWLER_SUCCESS : Int
  HOWLER_ERROR_INVALID_PTR : Int
  HOWLER_ERROR_LIBUSB_CONTEXT_ERROR : Int
  HOWLER_ERROR_LIBUSB_DEVICE_LIST_ERROR : Int

/-- The number of entries of the product id table. -/
def HowlerH.MAX_HOWLER_DEVICE_IDS (hh : HowlerH) : Nat :=
  hh.HOWLER_DEVICE_ID.length

/-- libusb's code for "access denied" (`libusb.h`). -/
def LIBUSB_ERROR_ACCESS : Int := -3

/-! ## `is_howler` -/

/-- The `for` loop of `is_howler` (lines 39-44), over the table entries still to
be compared; `has_device_id` is the flag so far. -/
def is_howler_scan (idProduct : Nat) : List Nat → Int → Int
  | [], has_device_id => has_device_id
  | id :: rest, has_device_id =>
      is_howler_scan idProduct rest (if idProduct = id then 1 else has_device_id)

/-- The function `is_howler` (lines 30-50). -/
def is_howler (hh : HowlerH) (device : libusb_device) : Int :=
  let desc := device.desc
  if desc.idVendor ≠ hh.HOWLER_VENDOR_ID then
    0
  else
    let has_device_id := is_howler_scan desc.idProduct hh.HOWLER_DEVICE_ID 0
    if has_device_id = 0 then 0 else 1

/-! ## `howler_init` and `howler_destroy` -/

/-- A call made by `howler_init` or `howler_destroy`.  `libusb_open` carries
the position of the device in the list and the status it returned; `warning`
is the `fprintf` to `stderr` of lines 106-108.  Reading a descriptor is a
field access in this model and leaves no entry. -/
inductive SessionCall where
  | libusb_init
  | libusb_set_debug (ctx level : Nat)
  | libusb_get_device_list (ctx : Nat)
  | libusb_open (i : Nat) (device : libusb_device) (status : Int)
  | warning
  | libusb_free_device_list (unref_devices : Nat)
  | libusb_close (handle : Nat)
  | free_devices
  | libusb_exit (ctx : Nat)
  | free_context
deriving DecidableEq, Repr

/-- What `libusb_get_device_list` hands back: a negative count, or the list
(whose length is the count returned). -/
inductive DeviceList where
  | failed (code : Int)
  | listed (device_list : List libusb_device)
deriving DecidableEq, Repr

/-- The transport seen from `howler_init`: the status of `libusb_init` and the
context it stores, the outcome of the listing, and for the device at each list
position the status of `libusb_open` and the handle it stores. -/
structure UsbWorld where
  init_status : Int
  usb_ctx : Nat
  device_list : DeviceList
  open_status : Nat → Int
  open_handle : Nat → Nat

/-- The largest `size_t` (LP64). -/
def SIZE_MAX : Nat := 2 ^ 64 - 1

/-- The statement `nHowlers--` on a `size_t`. -/
def size_dec (n : Nat) : Nat := if n = 0 then SIZE_MAX else n - 1

/-- The ways `howler_init` can stop without returning. -/
inductive InitFault where
  | assert_line_116
  | assert_line_124
  | write_outside_howlers
deriving DecidableEq, Repr

/-- The first loop of `howler_init` (lines 79-84): `nHowlers` after the
devices given. -/
def count_howlers (hh : HowlerH) : List libusb_device → Nat → Nat
  | [], nHowlers => nHowlers
  | d :: rest, nHowlers =>
      count_howlers hh rest (if is_howler hh d ≠ 0 then nHowlers + 1 else nHowlers)

/-- The variables of the second loop of `howler_init`. -/
structure ScanState where
  nHowlers : Nat
  howler_idx : Nat
  howlers : List (Option howler_device)
  trace : List SessionCall
deriving DecidableEq, Repr

/-- The second loop of `howler_init` (lines 97-122), over the devices from
list position `i` on. -/
def open_loop (hh : HowlerH) (w : UsbWorld) :
    List libusb_device → Nat → ScanState → Except InitFault ScanState
  | [], _, s => .ok s
  | d :: rest, i, s =>
      if is_howler hh d = 0 then
        open_loop hh w rest (i + 1) s
      else
        let err := w.open_status i
        let h := w.open_handle i
        let tr := s.trace ++ [.libusb_open i d err]
        if err < 0 then
          let tr := if err = LIBUSB_ERROR_ACCESS then tr ++ [.warning] else tr
          open_loop hh w rest (i + 1) { s with nHowlers := size_dec s.nHowlers, trace := tr }
        else if ¬ s.howler_idx < s.nHowlers then
          .error .assert_line_116
        else if ¬ s.howler_idx < s.howlers.length then
          .error .write_outside_howlers
        else
          let howler : howler_device := ⟨d, h, List.replicate 6 0⟩
          open_loop hh w rest (i + 1)
            { s with howler_idx := s.howler_idx + 1,
                     howlers := s.howlers.set s.howler_idx (some howler),
                     trace := tr }

/-- What `howler_init` leaves behind when it returns: the `int` returned, the
value of `*ctx_ptr` (`none` is `NULL`), the calls made, and the contexts that
were stored in `*ctx_ptr` and then overwritten there. -/
structure InitResult where
  ret : Int
  ctx : Option howler_context
  trace : List SessionCall
  overwritten : List howler_context
deriving DecidableEq, Repr

/-- The function `howler_init` (lines 52-143); `ctx_ptr` is an address.  The
block of lines 87-93 stores a first context (no devices, `devices = NULL`) in
`*ctx_ptr` and does not return: the function goes on and line 131 overwrites
that store. -/
def howler_init (hh : HowlerH) (w : UsbWorld) (ctx_ptr : Nat) :
    Except InitFault InitResult :=
  if ctx_ptr = 0 then
    .ok ⟨hh.HOWLER_ERROR_INVALID_PTR, none, [], []⟩
  else
    let ret := w.init_status
    if ret ≠ 0 then
      .ok ⟨hh.HOWLER_ERROR_LIBUSB_CONTEXT_ERROR, none, [.libusb_init], []⟩
    else
      let usb_ctx := w.usb_ctx
      let tr := [.libusb_init, .libusb_set_debug usb_ctx 3, .libusb_get_device_list usb_ctx]
      match w.device_list with
      | .failed _ =>
          .ok ⟨hh.HOWLER_ERROR_LIBUSB_DEVICE_LIST_ERROR, none, tr ++ [.libusb_exit usb_ctx], []⟩
      | .listed device_list =>
          let nHowlers := count_howlers hh device_list 0
          let short_circuit : List howler_context :=
            if nHowlers = 0 then [⟨usb_ctx, nHowlers, []⟩] else []
          let howlers := List.replicate nHowlers none
          match open_loop hh w device_list 0 ⟨nHowlers, 0, howlers, tr⟩ with
          | .error f => .error f
          | .ok s =>
              if s.howler_idx ≠ s.nHowlers then
                .error .assert_line_124
              else
                .ok ⟨hh.HOWLER_SUCCESS, some ⟨usb_ctx, s.nHowlers, s.howlers⟩,
                     s.trace ++ [.libusb_free_device_list 1], short_circuit⟩

/-- The loop of `howler_destroy` (lines 147-150) from index `i` on: the
`libusb_close` calls made, or `none` when `ctx->devices[i]` is outside the
array or was never written. -/
def destroy_loop (ctx : howler_context) (i : Nat) : Option (List SessionCall) :=
  if i < ctx.nDevices then
    match ctx.devices[i]? with
    | some (some d) =>
        (destroy_loop ctx (i + 1)).map (fun tr => SessionCall.libusb_close d.usb_handle :: tr)
    | _ => none
  else
    some []
termination_by ctx.nDevices - i

/-- The function `howler_destroy` (lines 145-155): the calls it makes. The
argument `none` is the `NULL` context. -/
def howler_destroy (ctx : Option howler_context) : Option (List SessionCall) :=
  match ctx with
  | none => some []
  | some c =>
      (destroy_loop c 0).map
        (fun closes => closes ++ [.free_devices, .libusb_exit c.usb_ctx, .free_context])

/-! ## `howler_sendrcv` -/

/-- A libusb call made during an exchange, with its arguments. -/
inductive UsbCall where
  | libusb_kernel_driver_active (handle iface : Nat)
  | libusb_detach_kernel_driver (handle iface : Nat)
  | libusb_claim_interface (handle iface : Nat)
  | libusb_interrupt_transfer (handle endpoint data length timeout : Nat)
  | libusb_release_interface (handle iface : Nat)
  | libusb_attach_kernel_driver (handle iface : Nat)
deriving DecidableEq, Repr

/-- One entry of the call trace: the call and the status libusb returned. -/
structure UsbEvent where
  call : UsbCall
  status : Int
deriving DecidableEq, Repr

/-- The transport seen from one exchange: the status of every call. No call is
made twice during an exchange (see `sendrcv_trace_nodup`), so this is as
general as a transport with state. -/
abbrev Transport := UsbCall → Int

/-- The returned `int` and the calls made, oldest first. -/
structure SendRcvResult where
  ret : Int
  trace : List UsbEvent
deriving DecidableEq, Repr

/-- The `while` loop of `howler_sendrcv` (lines 192-200), entered with the
current `endpoint`.  Returns the final `err` and the transfers made. -/
def read_loop (usb : Transport) (handle output : Nat) (endpoint : Nat) :
    Int × List UsbEvent :=
  let c := UsbCall.libusb_interrupt_transfer handle endpoint output 24 0
  let err := usb c
  if err ≠ 0 then
    if h81 : 0x81 = endpoint then
      let r := read_loop usb handle output 0x83
      (r.1, ⟨c, err⟩ :: r.2)
    else if h83 : 0x83 = endpoint then
      let r := read_loop usb handle output 0x86
      (r.1, ⟨c, err⟩ :: r.2)
    else
      (err, [⟨c, err⟩])
  else
    (err, [⟨c, err⟩])
termination_by (if endpoint = 0x81 then 2 else if endpoint = 0x83 then 1 else 0 : Nat)
decreasing_by
  · subst h81; decide
  · subst h83; decide

/-- The label `detach:` (lines 205-209): reattach the kernel driver if
`kernel_driver_attached` is set, then `return err`. -/
def sendrcv_detach (usb : Transport) (handle : Nat) (kernel_driver_attached : Bool)
    (err : Int) (tr : List UsbEvent) : SendRcvResult :=
  if kernel_driver_attached then
    let c := UsbCall.libusb_attach_kernel_driver handle 0
    ⟨err, tr ++ [⟨c, usb c⟩]⟩
  else
    ⟨err, tr⟩

/-- The label `error:` (lines 203-204): release the interface and fall through
to `detach:`. -/
def sendrcv_error (usb : Transport) (handle : Nat) (kernel_driver_attached : Bool)
    (err : Int) (tr : List UsbEvent) : SendRcvResult :=
  let c := UsbCall.libusb_release_interface handle 0
  sendrcv_detach usb handle kernel_driver_attached err (tr ++ [⟨c, usb c⟩])

/-- Lines 177-209: everything from `libusb_claim_interface` on. `tr` holds the
calls made so far. -/
def sendrcv_claim (usb : Transport) (handle cmd_buf output : Nat)
    (kernel_driver_attached : Bool) (tr : List UsbEvent) : SendRcvResult :=
  let cClaim := UsbCall.libusb_claim_interface handle 0
  let err := usb cClaim
  let tr := tr ++ [⟨cClaim, err⟩]
  if err < 0 then
    sendrcv_detach usb handle kernel_driver_attached err tr
  else
    let cWrite := UsbCall.libusb_interrupt_transfer handle 0x02 cmd_buf 24 0
    let err := usb cWrite
    let tr := tr ++ [⟨cWrite, err⟩]
    if err < 0 then
      sendrcv_error usb handle kernel_driver_attached err tr
    else if output ≠ 0 then
      let r := read_loop usb handle output 0x81
      sendrcv_error usb handle kernel_driver_attached r.1 (tr ++ r.2)
    else
      sendrcv_error usb handle kernel_driver_attached err tr

/-- The function `howler_sendrcv` (lines 157-210). `cmd_buf` and `output` are
addresses; `output = 0` is the `NULL` output buffer. -/
def howler_sendrcv (usb : Transport) (dev : howler_device) (cmd_buf output : Nat) :
    SendRcvResult :=
  let handle := dev.usb_handle
  let cQuery := UsbCall.libusb_kernel_driver_active handle 0
  let err := usb cQuery
  if err < 0 then
    ⟨-1, [⟨cQuery, err⟩]⟩
  else if err ≠ 0 then
    -- kernel_driver_attached = 1
    let cDetach := UsbCall.libusb_detach_kernel_driver handle 0
    let err2 := usb cDetach
    if err2 < 0 then
      ⟨-1, [⟨cQuery, err⟩, ⟨cDetach, err2⟩]⟩
    else
      sendrcv_claim usb handle cmd_buf output true [⟨cQuery, err⟩, ⟨cDetach, err2⟩]
  else
    sendrcv_claim usb handle cmd_buf output false [⟨cQuery, err⟩]

/-! ### Reading a call trace -/

/-- Is the call a `libusb_detach_kernel_driver`? -/
def UsbCall.isDetach : UsbCall → Bool
  | .libusb_detach_kernel_driver _ _ => true
  | _ => false

/-- Is the call a `libusb_claim_interface`? -/
def UsbCall.isClaim : UsbCall → Bool
  | .libusb_claim_interface _ _ => true
  | _ => false

/-- Is the call a `libusb_interrupt_transfer`? -/
def UsbCall.isTransfer : UsbCall → Bool
  | .libusb_interrupt_transfer _ _ _ _ _ => true
  | _ => false

/-- Is the call a `libusb_release_interface`? -/
def UsbCall.isRelease : UsbCall → Bool
  | .libusb_release_interface _ _ => true
  | _ => false

/-- Is the call a `libusb_attach_kernel_driver`? -/
def UsbCall.isAttach : UsbCall → Bool
  | .libusb_attach_kernel_driver _ _ => true
  | _ => false

/-- The number of `libusb_release_interface` calls in a trace. -/
def releases (tr : List UsbEvent) : Nat := tr.countP (fun e => e.call.isRelease)

/-- The number of `libusb_attach_kernel_driver` calls in a trace. -/
def attaches (tr : List UsbEvent) : Nat := tr.countP (fun e => e.call.isAttach)

/-- Was `libusb_claim_interface` called with a non-negative status? -/
def claimed (tr : List UsbEvent) : Bool :=
  tr.any (fun e => e.call.isClaim && decide (0 ≤ e.status))

/-- Was `libusb_detach_kernel_driver` called with a non-negative status? -/
def detached (tr : List UsbEvent) : Bool :=
  tr.any (fun e => e.call.isDetach && decide (0 ≤ e.status))

/-- The interrupt transfers of a trace, in order: endpoint, buffer, length and
the status returned. -/
def transfers : List UsbEvent → List (Nat × Nat × Nat × Int)
  | [] => []
  | ⟨.libusb_interrupt_transfer _ ep data len _, st⟩ :: rest =>
      (ep, data, len, st) :: transfers rest
  | _ :: rest => transfers rest

/-- The endpoints read during an exchange, in order: the interrupt transfers
on an IN endpoint (address bit `0x80` set). -/
def reads (tr : List UsbEvent) : List Nat :=
  ((transfers tr).filter (fun t => decide (0x80 ≤ t.1))).map (fun t => t.1)

/-- The trace entry of a call: the call with the status the transport gives. -/
def Transport.ev (usb : Transport) (c : UsbCall) : UsbEvent := ⟨c, usb c⟩

/-- The call `libusb_kernel_driver_active(handle, 0)`. -/
def call_query (handle : Nat) : UsbCall := .libusb_kernel_driver_active handle 0

/-- The call `libusb_detach_kernel_driver(handle, 0)`. -/
def call_detach (handle : Nat) : UsbCall := .libusb_detach_kernel_driver handle 0

/-- The call `libusb_claim_interface(handle, 0)`. -/
def call_claim (handle : Nat) : UsbCall := .libusb_claim_interface handle 0

/-- The write: `libusb_interrupt_transfer(handle, 0x02, cmd_buf, 24, &transferred, 0)`. -/
def call_write (handle cmd_buf : Nat) : UsbCall :=
  .libusb_interrupt_transfer handle 0x02 cmd_buf 24 0

/-- A read: `libusb_interrupt_transfer(handle, endpoint, output, 24, &transferred, 0)`. -/
def call_read (handle output endpoint : Nat) : UsbCall :=
  .libusb_interrupt_transfer handle endpoint output 24 0

/-- The call `libusb_release_interface(handle, 0)`. -/
def call_release (handle : Nat) : UsbCall := .libusb_release_interface handle 0

/-- The call `libusb_attach_kernel_driver(handle, 0)`. -/
def call_attach (handle : Nat) : UsbCall := .libusb_attach_kernel_driver handle 0

/-- The calls of an exchange from the claim up to, not including, the release,
with the `err` they leave: one of the six ways through lines 177-201. -/
def ClaimPath (usb : Transport) (h cmd_buf output : Nat) (body : List UsbEvent)
    (claimOk : Bool) (err : Int) : Prop :=
  (usb (call_claim h) < 0 ∧ claimOk = false ∧ err = usb (call_claim h) ∧
      body = [usb.ev (call_claim h)]) ∨
  (0 ≤ usb (call_claim h) ∧ claimOk = true ∧
    ((usb (call_write h cmd_buf) < 0 ∧ err = usb (call_write h cmd_buf) ∧
        body = [usb.ev (call_claim h), usb.ev (call_write h cmd_buf)]) ∨
     (0 ≤ usb (call_write h cmd_buf) ∧ output = 0 ∧ err = usb (call_write h cmd_buf) ∧
        body = [usb.ev (call_claim h), usb.ev (call_write h cmd_buf)]) ∨
     (0 ≤ usb (call_write h cmd_buf) ∧ output ≠ 0 ∧
        usb (call_read h output 0x81) = 0 ∧ err = 0 ∧
        body = [usb.ev (call_claim h), usb.ev (call_write h cmd_buf),
                usb.ev (call_read h output 0x81)]) ∨
     (0 ≤ usb (call_write h cmd_buf) ∧ output ≠ 0 ∧
        usb (call_read h output 0x81) ≠ 0 ∧ usb (call_read h output 0x83) = 0 ∧ err = 0 ∧
        body = [usb.ev (call_claim h), usb.ev (call_write h cmd_buf),
                usb.ev (call_read h output 0x81), usb.ev (call_read h output 0x83)]) ∨
     (0 ≤ usb (call_write h cmd_buf) ∧ output ≠ 0 ∧
        usb (call_read h output 0x81) ≠ 0 ∧ usb (call_read h output 0x83) ≠ 0 ∧
        err = usb (call_read h output 0x86) ∧
        body = [usb.ev (call_claim h), usb.ev (call_write h cmd_buf),
                usb.ev (call_read h output 0x81), usb.ev (call_read h output 0x83),
                usb.ev (call_read h output 0x86)])))

/-- The ways through `howler_sendrcv`: the two early returns, or a prefix (the
query, and the detach when the driver was active), a `ClaimPath`, the release
when the claim did not fail and the reattach when the driver was detached. -/
def SendRcvPath (usb : Transport) (h cmd_buf output : Nat) (r : SendRcvResult) : Prop :=
  (usb (call_query h) < 0 ∧ r = ⟨-1, [usb.ev (call_query h)]⟩) ∨
  (0 < usb (call_query h) ∧ usb (call_detach h) < 0 ∧
      r = ⟨-1, [usb.ev (call_query h), usb.ev (call_detach h)]⟩) ∨
  ∃ (pre body : List UsbEvent) (kda claimOk : Bool) (err : Int),
    ((usb (call_query h) = 0 ∧ kda = false ∧ pre = [usb.ev (call_query h)]) ∨
     (0 < usb (call_query h) ∧ 0 ≤ usb (call_detach h) ∧ kda = true ∧
        pre = [usb.ev (call_query h), usb.ev (call_detach h)])) ∧
    ClaimPath usb h cmd_buf output body claimOk err ∧
    r = ⟨err, pre ++ body ++ (if claimOk then [usb.ev (call_release h)] else []) ++
                (if kda then [usb.ev (call_attach h)] else [])⟩

/-- The endpoints a fallback over `endpoints` tries, following the words of
the specification: the shortest prefix whose last transfer returned 0, or all
of them when no transfer returned 0. -/
def fallback_reads (status : Nat → Int) : List Nat → List Nat
  | [] => []
  | ep :: rest => if status ep = 0 then [ep] else ep :: fallback_reads status rest

/-- A transport given by the nine statuses an exchange can meet: the query,
the detach, the claim, the write on `0x02`, the reads on `0x81`, `0x83` and
any other endpoint, the release and the reattach. -/
def Transport.ofStatuses (q d c w r81 r83 r86 rel att : Int) : Transport
  | .libusb_kernel_driver_active _ _ => q
  | .libusb_detach_kernel_driver _ _ => d
  | .libusb_claim_interface _ _ => c
  | .libusb_interrupt_transfer _ ep _ _ _ =>
      if ep = 0x02 then w else if ep = 0x81 then r81 else if ep = 0x83 then r83 else r86
  | .libusb_release_interface _ _ => rel
  | .libusb_attach_kernel_driver _ _ => att

/-- A device used in the examples: handle 7. -/
def dev7 : howler_device := ⟨⟨1, ⟨0, 0⟩⟩, 7, List.replicate 6 0⟩

/-- The registry entries the specification asks for: one entry, in list order,
for each listed device (from list position `i` on) that is a family member and
whose `libusb_open` returned a non-negative status. -/
def opened (hh : HowlerH) (w : UsbWorld) : List libusb_device → Nat → List howler_device
  | [], _ => []
  | d :: rest, i =>
      if is_howler hh d = 1 ∧ 0 ≤ w.open_status i then
        ⟨d, w.open_handle i, List.replicate 6 0⟩ :: opened hh w rest (i + 1)
      else
        opened hh w rest (i + 1)

/-- The product id table of the examples. -/
def hh_example : HowlerH := ⟨0x3EB, [0x6800, 0x6801], 0, -1, -2, -3⟩

/-- A world of the examples: four devices listed, the second is no family
member, the third cannot be opened (access denied). -/
def world_example : UsbWorld where
  init_status := 0
  usb_ctx := 50
  device_list := .listed
    [⟨10, ⟨0x3EB, 0x6800⟩⟩, ⟨11, ⟨0x46D, 0x6800⟩⟩, ⟨12, ⟨0x3EB, 0x6801⟩⟩, ⟨13, ⟨0x3EB, 0x6801⟩⟩]
  open_status := fun i => if i = 2 then -3 else 0
  open_handle := fun i => 100 + i

/-- A registry of the examples: two connected devices, an array of three
slots. -/
def registry_example : howler_context :=
  ⟨50, 2, [some ⟨⟨10, ⟨0x3EB, 0x6800⟩⟩, 100, List.replicate 6 0⟩,
           some ⟨⟨13, ⟨0x3EB, 0x6801⟩⟩, 103, List.replicate 6 0⟩, none]⟩

/-! ### Reading the traces of the later properties -/

/-- The calls the second loop of `howler_init` is to make, following the words
of the specification: one `libusb_open` for each family member listed (from
list position `i` on), in list order and whatever the earlier opens returned,
each followed by one warning when it failed with `LIBUSB_ERROR_ACCESS`. -/
def open_calls (hh : HowlerH) (w : UsbWorld) : List libusb_device → Nat → List SessionCall
  | [], _ => []
  | d :: rest, i =>
      if is_howler hh d = 1 then
        SessionCall.libusb_open i d (w.open_status i) ::
          ((if w.open_status i = LIBUSB_ERROR_ACCESS then [SessionCall.warning] else []) ++
            open_calls hh w rest (i + 1))
      else
        open_calls hh w rest (i + 1)

/-- The list positions on which a trace attempts `libusb_open`, in order. -/
def open_attempts : List SessionCall → List Nat
  | [] => []
  | .libusb_open i _ _ :: rest => i :: open_attempts rest
  | _ :: rest => open_attempts rest

/-- The number of warnings in a trace. -/
def warnings (tr : List SessionCall) : Nat := tr.count .warning

/-- Is the call a `libusb_exit`? -/
def SessionCall.isExit : SessionCall → Bool
  | .libusb_exit _ => true
  | _ => false

/-- Is the call a `libusb_close`? -/
def SessionCall.isClose : SessionCall → Bool
  | .libusb_close _ => true
  | _ => false

/-- Is the call the write of an exchange, an interrupt transfer on `0x02`? -/
def UsbCall.isWrite : UsbCall → Bool
  | .libusb_interrupt_transfer _ ep _ _ _ => decide (ep = 0x02)
  | _ => false

/-- Is the call a read, an interrupt transfer on an IN endpoint (address bit
`0x80` set)? -/
def UsbCall.isRead : UsbCall → Bool
  | .libusb_interrupt_transfer _ ep _ _ _ => decide (0x80 ≤ ep)
  | _ => false

/-- Every call of kind `p` comes before every call of kind `q`: whenever entry
`i` of the trace is a `p` and entry `j` is a `q`, `i < j`. -/
def precedes (p q : UsbCall → Bool) (tr : List UsbEvent) : Prop :=
  ∀ (i j : Nat) (e1 e2 : UsbEvent), tr[i]? = some e1 → tr[j]? = some e2 →
    p e1.call = true → q e2.call = true → i < j

/-- The stage of an exchange a call belongs to: query 0, detach 1, claim 2,
write 3, any other interrupt transfer 4, release 5, reattach 6. -/
def UsbCall.phase : UsbCall → Nat
  | .libusb_kernel_driver_active _ _ => 0
  | .libusb_detach_kernel_driver _ _ => 1
  | .libusb_claim_interface _ _ => 2
  | .libusb_interrupt_transfer _ ep _ _ _ => if ep = 0x02 then 3 else 4
  | .libusb_release_interface _ _ => 5
  | .libusb_attach_kernel_driver _ _ => 6

/-- A world of the examples in which listing the devices fails. -/
def world_list_fails : UsbWorld :=
  { world_example with device_list := .failed (-99) }

/-- A world of the examples with two devices listed, neither a family member. -/
def world_no_howler : UsbWorld :=
  { world_example with
      device_list := .listed [⟨20, ⟨0x46D, 0x6800⟩⟩, ⟨21, ⟨0x3EB, 0x1234⟩⟩] }

/-! ### The exchange, path by path -/

theorem read_loop_86 (usb : Transport) (handle output : Nat) :
    read_loop usb handle output 0x86 =
      (usb (.libusb_interrupt_transfer handle 0x86 output 24 0),
       [⟨.libusb_interrupt_transfer handle 0x86 output 24 0,
         usb (.libusb_interrupt_transfer handle 0x86 output 24 0)⟩]) := by
  rw [read_loop]
  simp

theorem read_loop_83 (usb : Transport) (handle output : Nat) :
    read_loop usb handle output 0x83 =
      if usb (.libusb_interrupt_transfer handle 0x83 output 24 0) ≠ 0 then
        (usb (.libusb_interrupt_transfer handle 0x86 output 24 0),
         [⟨.libusb_interrupt_transfer handle 0x83 output 24 0,
           usb (.libusb_interrupt_transfer handle 0x83 output 24 0)⟩,
          ⟨.libusb_interrupt_transfer handle 0x86 output 24 0,
           usb (.libusb_interrupt_transfer handle 0x86 output 24 0)⟩])
      else
        (0, [⟨.libusb_interrupt_transfer handle 0x83 output 24 0, 0⟩]) := by
  rw [read_loop]
  simp only [read_loop_86]
  split_ifs with h <;> simp_all

theorem read_loop_81 (usb : Transport) (handle output : Nat) :
    read_loop usb handle output 0x81 =
      if usb (.libusb_interrupt_transfer handle 0x81 output 24 0) ≠ 0 then
        ((read_loop usb handle output 0x83).1,
         ⟨.libusb_interrupt_transfer handle 0x81 output 24 0,
           usb (.libusb_interrupt_transfer handle 0x81 output 24 0)⟩ ::
           (read_loop usb handle output 0x83).2)
      else
        (0, [⟨.libusb_interrupt_transfer handle 0x81 output 24 0, 0⟩]) := by
  rw [read_loop]
  split_ifs with h <;> simp_all

theorem sendrcv_claim_path (usb : Transport) (h cmd_buf output : Nat) (kda : Bool)
    (pre : List UsbEvent) :
    ∃ (body : List UsbEvent) (claimOk : Bool) (err : Int),
      ClaimPath usb h cmd_buf output body claimOk err ∧
      sendrcv_claim usb h cmd_buf output kda pre =
        ⟨err, pre ++ body ++ (if claimOk then [usb.ev (call_release h)] else []) ++
                (if kda then [usb.ev (call_attach h)] else [])⟩ := by
  unfold sendrcv_claim sendrcv_error sendrcv_detach ClaimPath
  simp only [read_loop_81, read_loop_83, call_claim, call_write, call_read, call_release,
    call_attach, Transport.ev]
  by_cases hc : usb (.libusb_claim_interface h 0) < 0
  · refine ⟨_, false, _, Or.inl ⟨hc, rfl, rfl, rfl⟩, ?_⟩
    cases kda <;> simp [hc]
  · have hc0 := not_lt.mp hc
    by_cases hw : usb (.libusb_interrupt_transfer h 0x02 cmd_buf 24 0) < 0
    · refine ⟨_, true, _, Or.inr ⟨hc0, rfl, Or.inl ⟨hw, rfl, rfl⟩⟩, ?_⟩
      cases kda <;> simp [hc, hw]
    · have hw0 := not_lt.mp hw
      by_cases ho : output = 0
      · refine ⟨_, true, _, Or.inr ⟨hc0, rfl, Or.inr (Or.inl ⟨hw0, ho, rfl, rfl⟩)⟩, ?_⟩
        cases kda <;> simp [hc, hw, ho]
      · by_cases h81 : usb (.libusb_interrupt_transfer h 0x81 output 24 0) = 0
        · refine ⟨_, true, _,
            Or.inr ⟨hc0, rfl, Or.inr (Or.inr (Or.inl ⟨hw0, ho, h81, rfl, rfl⟩))⟩, ?_⟩
          cases kda <;> simp [hc, hw, ho, h81]
        · by_cases h83 : usb (.libusb_interrupt_transfer h 0x83 output 24 0) = 0
          · refine ⟨_, true, _,
              Or.inr ⟨hc0, rfl, Or.inr (Or.inr (Or.inr (Or.inl ⟨hw0, ho, h81, h83, rfl, rfl⟩)))⟩,
              ?_⟩
            cases kda <;> simp [hc, hw, ho, h81, h83]
          · refine ⟨_, true, _,
              Or.inr ⟨hc0, rfl, Or.inr (Or.inr (Or.inr (Or.inr ⟨hw0, ho, h81, h83, rfl, rfl⟩)))⟩,
              ?_⟩
            cases kda <;> simp [hc, hw, ho, h81, h83]

theorem sendrcv_path (usb : Transport) (dev : howler_device) (cmd_buf output : Nat) :
    SendRcvPath usb dev.usb_handle cmd_buf output (howler_sendrcv usb dev cmd_buf output) := by
  unfold howler_sendrcv SendRcvPath
  by_cases hq : usb (.libusb_kernel_driver_active dev.usb_handle 0) < 0
  · exact Or.inl ⟨hq, by simp [hq, Transport.ev, call_query]⟩
  · by_cases hq0 : usb (.libusb_kernel_driver_active dev.usb_handle 0) = 0
    · obtain ⟨body, ok, err, hp, he⟩ :=
        sendrcv_claim_path usb dev.usb_handle cmd_buf output false [usb.ev (call_query dev.usb_handle)]
      refine Or.inr (Or.inr ⟨_, body, false, ok, err, Or.inl ⟨hq0, rfl, rfl⟩, hp, ?_⟩)
      simp only [Transport.ev, call_query] at he
      simp only [hq, hq0, if_false, Transport.ev, call_query, ne_eq, not_true_eq_false]
      simpa [hq0] using he
    · have hqp : 0 < usb (.libusb_kernel_driver_active dev.usb_handle 0) := by omega
      by_cases hd : usb (.libusb_detach_kernel_driver dev.usb_handle 0) < 0
      · exact Or.inr (Or.inl ⟨hqp, hd, by simp [hq, hq0, hd, Transport.ev, call_query, call_detach]⟩)
      · obtain ⟨body, ok, err, hp, he⟩ :=
          sendrcv_claim_path usb dev.usb_handle cmd_buf output true
            [usb.ev (call_query dev.usb_handle), usb.ev (call_detach dev.usb_handle)]
        refine Or.inr (Or.inr ⟨_, body, true, ok, err,
          Or.inr ⟨hqp, not_lt.mp hd, rfl, rfl⟩, hp, ?_⟩)
        simp only [Transport.ev, call_query, call_detach] at he
        simp only [hq, hq0, hd, if_false, if_true, Transport.ev, call_query, call_detach, ne_eq,
          not_false_eq_true]
        simpa using he

/-- No call is made twice during an exchange. -/
theorem sendrcv_trace_nodup (usb : Transport) (dev : howler_device) (cmd_buf output : Nat) :
    ((howler_sendrcv usb dev cmd_buf output).trace.map (fun e => e.call)).Nodup := by
  have hp := sendrcv_path usb dev cmd_buf output
  generalize howler_sendrcv usb dev cmd_buf output = r at hp ⊢
  unfold SendRcvPath ClaimPath at hp
  simp only [call_query, call_detach, call_claim, call_write, call_read, call_release,
    call_attach, Transport.ev] at hp
  rcases hp with ⟨pq, rfl⟩ | ⟨pq, pd, rfl⟩ | ⟨pre, body, kda, ok, err, hpre, hbody, rfl⟩
  · simp
  · simp
  · rcases hpre with ⟨pq, rfl, rfl⟩ | ⟨pq, pd, rfl, rfl⟩ <;>
    rcases hbody with ⟨pc, rfl, rfl, rfl⟩ | ⟨pc, rfl, ⟨pw, rfl, rfl⟩ | ⟨pw, po, rfl, rfl⟩ |
      ⟨pw, po, h81, rfl, rfl⟩ | ⟨pw, po, h81, h83, rfl, rfl⟩ | ⟨pw, po, h81, h83, rfl, rfl⟩⟩ <;>
    simp

/-! ### `is_howler` and the scan of `howler_init` -/

theorem is_howler_scan_eq (p : Nat) (ids : List Nat) (acc : Int) :
    is_howler_scan p ids acc = if p ∈ ids then 1 else acc := by
  induction ids generalizing acc with
  | nil => simp [is_howler_scan]
  | cons id rest ih =>
      rw [is_howler_scan, ih]
      by_cases h1 : p = id
      · simp [h1]
      · by_cases h2 : p ∈ rest <;> simp [h1, h2]

theorem is_howler_eq (hh : HowlerH) (d : libusb_device) :
    is_howler hh d =
      if d.desc.idVendor = hh.HOWLER_VENDOR_ID ∧ d.desc.idProduct ∈ hh.HOWLER_DEVICE_ID
      then 1 else 0 := by
  unfold is_howler
  simp only [is_howler_scan_eq]
  by_cases hv : d.desc.idVendor = hh.HOWLER_VENDOR_ID <;>
    by_cases hm : d.desc.idProduct ∈ hh.HOWLER_DEVICE_ID <;> simp [hv, hm]

theorem is_howler_ne_zero (hh : HowlerH) (d : libusb_device) :
    is_howler hh d ≠ 0 ↔ is_howler hh d = 1 := by
  rw [is_howler_eq]
  split_ifs <;> simp

theorem count_howlers_eq (hh : HowlerH) (devs : List libusb_device) (n : Nat) :
    count_howlers hh devs n = n + devs.countP (fun d => decide (is_howler hh d = 1)) := by
  induction devs generalizing n with
  | nil => simp [count_howlers]
  | cons d rest ih =>
      rw [count_howlers, ih, List.countP_cons]
      by_cases h : is_howler hh d = 1
      · have h0 : is_howler hh d ≠ 0 := (is_howler_ne_zero hh d).mpr h
        simp [h]
        omega
      · have h0 : is_howler hh d = 0 := by
          by_contra c
          exact h ((is_howler_ne_zero hh d).mp c)
        simp [h, h0]

theorem opened_length_le (hh : HowlerH) (w : UsbWorld) (devs : List libusb_device) (i : Nat) :
    (opened hh w devs i).length ≤ devs.countP (fun d => decide (is_howler hh d = 1)) := by
  induction devs generalizing i with
  | nil => simp [opened]
  | cons d rest ih =>
      rw [opened, List.countP_cons]
      have := ih (i + 1)
      by_cases h : is_howler hh d = 1 <;> by_cases h2 : 0 ≤ w.open_status i <;>
        simp [h, h2] <;> omega

theorem opened_length (hh : HowlerH) (w : UsbWorld) (devs : List libusb_device) (i : Nat) :
    (opened hh w devs i).length =
      (devs.enumFrom i).countP
        (fun p => decide (is_howler hh p.2 = 1) && decide (0 ≤ w.open_status p.1)) := by
  induction devs generalizing i with
  | nil => simp [opened]
  | cons d rest ih =>
      rw [opened, List.enumFrom_cons, List.countP_cons, ← ih (i + 1)]
      by_cases h : is_howler hh d = 1 <;> by_cases h2 : 0 ≤ w.open_status i <;> simp [h, h2]

theorem mem_opened (hh : HowlerH) (w : UsbWorld) (devs : List libusb_device) (i : Nat)
    (x : howler_device) (hx : x ∈ opened hh w devs i) :
    ∃ k d, devs[k]? = some d ∧ is_howler hh d = 1 ∧ 0 ≤ w.open_status (i + k) ∧
      x = ⟨d, w.open_handle (i + k), List.replicate 6 0⟩ := by
  induction devs generalizing i with
  | nil => simp [opened] at hx
  | cons d rest ih =>
      rw [opened] at hx
      have step : x ∈ opened hh w rest (i + 1) →
          ∃ k d', (d :: rest)[k]? = some d' ∧ is_howler hh d' = 1 ∧
            0 ≤ w.open_status (i + k) ∧ x = ⟨d', w.open_handle (i + k), List.replicate 6 0⟩ := by
        intro hmem
        obtain ⟨k, d', h1, h2, h3, h4⟩ := ih (i + 1) hmem
        refine ⟨k + 1, d', by simpa using h1, h2, ?_, ?_⟩
        · rwa [show i + (k + 1) = i + 1 + k by omega]
        · rwa [show i + (k + 1) = i + 1 + k by omega]
      split_ifs at hx with hc
      · rcases List.mem_cons.mp hx with rfl | hmem
        · exact ⟨0, d, by simp, hc.1, by simpa using hc.2, by simp⟩
        · exact step hmem
      · exact step hx

theorem take_succ_set {α : Type} (l : List α) (k : Nat) (x : α) (h : k < l.length) :
    (l.set k x).take (k + 1) = l.take k ++ [x] := by
  induction l generalizing k with
  | nil => simp at h
  | cons a rest ih =>
      cases k with
      | zero => simp
      | succ k =>
          simp only [List.set_cons_succ, List.take_succ_cons, List.cons_append, List.cons.injEq,
            true_and]
          exact ih k (by simpa using h)

/-- The second loop of `howler_init` returns, with every successful open
stored in the next free slot: started with `nHowlers` equal to `howler_idx`
plus the family members still to come, and with room for them in `howlers`. -/
theorem open_loop_ok (hh : HowlerH) (w : UsbWorld) (devs : List libusb_device) (i : Nat)
    (s : ScanState)
    (hn : s.nHowlers = s.howler_idx + devs.countP (fun d => decide (is_howler hh d = 1)))
    (hcap : s.nHowlers ≤ s.howlers.length) :
    ∃ s', open_loop hh w devs i s = .ok s' ∧
      s'.howler_idx = s.howler_idx + (opened hh w devs i).length ∧
      s'.nHowlers = s'.howler_idx ∧
      s'.howlers.length = s.howlers.length ∧
      s'.howlers.take s'.howler_idx =
        s.howlers.take s.howler_idx ++ (opened hh w devs i).map some := by
  induction devs generalizing i s with
  | nil =>
      refine ⟨s, rfl, by simp [opened], ?_, rfl, by simp [opened]⟩
      simpa using hn
  | cons d rest ih =>
      rw [open_loop, opened]
      rw [List.countP_cons] at hn
      by_cases hd : is_howler hh d = 1
      · have hd0 : ¬ is_howler hh d = 0 := by rw [hd]; decide
        simp only [hd0, if_false, hd, true_and]
        simp only [hd, decide_True, if_true] at hn
        by_cases he : w.open_status i < 0
        · have he' : ¬ 0 ≤ w.open_status i := not_le.mpr he
          simp only [he, if_true, he', if_false]
          have hpos : s.nHowlers ≠ 0 := by omega
          have hdec : size_dec s.nHowlers = s.nHowlers - 1 := by simp [size_dec, hpos]
          obtain ⟨s', h1, h2, h3, h4, h5⟩ := ih (i + 1)
            { s with nHowlers := size_dec s.nHowlers,
                     trace := if w.open_status i = LIBUSB_ERROR_ACCESS
                       then s.trace ++ [.libusb_open i d (w.open_status i)] ++ [.warning]
                       else s.trace ++ [.libusb_open i d (w.open_status i)] }
            (by simp only [hdec]; omega) (by simp only [hdec]; omega)
          exact ⟨s', h1, h2, h3, h4, h5⟩
        · have he' : 0 ≤ w.open_status i := not_lt.mp he
          have hlt : s.howler_idx < s.nHowlers := by omega
          have hlt2 : s.howler_idx < s.howlers.length := by omega
          simp only [he, if_false, he', if_true, hlt, hlt2, not_true_eq_false]
          obtain ⟨s', h1, h2, h3, h4, h5⟩ := ih (i + 1)
            { s with howler_idx := s.howler_idx + 1,
                     howlers := s.howlers.set s.howler_idx
                       (some ⟨d, w.open_handle i, List.replicate 6 0⟩),
                     trace := s.trace ++ [.libusb_open i d (w.open_status i)] }
            (by simp only; omega) (by simp only [List.length_set]; omega)
          refine ⟨s', h1, ?_, h3, ?_, ?_⟩
          · simp only [List.length_cons] at h2 ⊢; omega
          · simpa using h4
          · rw [h5]
            simp only [List.map_cons, take_succ_set _ _ _ hlt2, List.append_assoc,
              List.singleton_append]
      · have hd0 : is_howler hh d = 0 := by
          by_contra c
          exact hd ((is_howler_ne_zero hh d).mp c)
        simp only [hd0, if_true, hd, false_and, if_false]
        simp only [hd, decide_False] at hn
        obtain ⟨s', h1, h2, h3, h4, h5⟩ := ih (i + 1) s (by simpa using hn) hcap
        exact ⟨s', h1, h2, h3, h4, h5⟩

/-- On a successful listing `howler_init` returns `HOWLER_SUCCESS` with the
context of the session and, in the first `nDevices` slots of the array, the
entries `opened` describes. -/
theorem howler_init_listed (hh : HowlerH) (w : UsbWorld) (ctx_ptr : Nat)
    (devs : List libusb_device) (hp : ctx_ptr ≠ 0) (hi : w.init_status = 0)
    (hl : w.device_list = .listed devs) :
    ∃ howlers tr lost,
      howler_init hh w ctx_ptr =
        .ok ⟨hh.HOWLER_SUCCESS, some ⟨w.usb_ctx, (opened hh w devs 0).length, howlers⟩, tr,
          lost⟩ ∧
      howlers.take (opened hh w devs 0).length = (opened hh w devs 0).map some := by
  obtain ⟨s', h1, h2, h3, _, h5⟩ := open_loop_ok hh w devs 0
    ⟨count_howlers hh devs 0, 0, List.replicate (count_howlers hh devs 0) none,
      [.libusb_init, .libusb_set_debug w.usb_ctx 3, .libusb_get_device_list w.usb_ctx]⟩
    (by simp [count_howlers_eq]) (by simp)
  simp only [Nat.zero_add, List.take_zero, List.nil_append] at h2 h5
  refine ⟨s'.howlers, s'.trace ++ [.libusb_free_device_list 1],
    if count_howlers hh devs 0 = 0 then [⟨w.usb_ctx, count_howlers hh devs 0, []⟩] else [],
    ?_, ?_⟩
  · unfold howler_init
    simp only [hp, if_false, hi, ne_eq, not_true_eq_false, hl, h1]
    simp [h3, h2]
  · rw [← h2]
    exact h5

theorem destroy_loop_eq (ctx : howler_context) (ds : List howler_device)
    (hds : ctx.devices.take ctx.nDevices = ds.map some) (hlen : ds.length = ctx.nDevices)
    (k i : Nat) (hk : k = ctx.nDevices - i) (hi : i ≤ ctx.nDevices) :
    destroy_loop ctx i =
      some ((ds.drop i).map (fun d => SessionCall.libusb_close d.usb_handle)) := by
  induction k generalizing i with
  | zero =>
      have : i = ctx.nDevices := by omega
      rw [destroy_loop]
      simp [this, ← hlen]
  | succ k ih =>
      have hlt : i < ctx.nDevices := by omega
      have hlt' : i < ds.length := by omega
      have hget : ctx.devices[i]? = some (some ds[i]) := by
        have h1 : (ctx.devices.take ctx.nDevices)[i]? = ctx.devices[i]? := by
          rw [List.getElem?_take]
          simp [hlt]
        rw [← h1, hds]
        simp [hlt']
      rw [destroy_loop]
      simp only [hlt, if_true, hget]
      rw [ih (i + 1) (by omega) (by omega)]
      rw [List.drop_eq_getElem_cons hlt']
      rfl

/-- The value returned by `howler_sendrcv`, as a function of the statuses of
the query, the detach, the claim and the transfers. -/
theorem sendrcv_ret (usb : Transport) (dev : howler_device) (cmd_buf output : Nat) :
    (howler_sendrcv usb dev cmd_buf output).ret =
      if usb (call_query dev.usb_handle) < 0 then -1
      else if usb (call_query dev.usb_handle) ≠ 0 ∧ usb (call_detach dev.usb_handle) < 0 then -1
      else if usb (call_claim dev.usb_handle) < 0 then usb (call_claim dev.usb_handle)
      else if usb (call_write dev.usb_handle cmd_buf) < 0 ∨ output = 0 then
        usb (call_write dev.usb_handle cmd_buf)
      else if usb (call_read dev.usb_handle output 0x81) = 0 then 0
      else if usb (call_read dev.usb_handle output 0x83) = 0 then 0
      else usb (call_read dev.usb_handle output 0x86) := by
  have hp := sendrcv_path usb dev cmd_buf output
  generalize howler_sendrcv usb dev cmd_buf output = r at hp ⊢
  unfold SendRcvPath ClaimPath at hp
  simp only [call_query, call_detach, call_claim, call_write, call_read, call_release,
    call_attach, Transport.ev] at hp ⊢
  rcases hp with ⟨pq, rfl⟩ | ⟨pq, pd, rfl⟩ | ⟨pre, body, kda, ok, err, hpre, hbody, rfl⟩
  · simp [pq]
  · have h1 : ¬ usb (.libusb_kernel_driver_active dev.usb_handle 0) < 0 := by omega
    have h2 : usb (.libusb_kernel_driver_active dev.usb_handle 0) ≠ 0 := by omega
    simp [h1, h2, pd]
  · have hq1 : ¬ usb (.libusb_kernel_driver_active dev.usb_handle 0) < 0 := by
      rcases hpre with ⟨pq, -, -⟩ | ⟨pq, -, -, -⟩ <;> omega
    have hq2 : ¬ (usb (.libusb_kernel_driver_active dev.usb_handle 0) ≠ 0 ∧
        usb (.libusb_detach_kernel_driver dev.usb_handle 0) < 0) := by
      rcases hpre with ⟨pq, -, -⟩ | ⟨pq, pd, -, -⟩ <;> omega
    rw [if_neg hq1, if_neg hq2]
    rcases hbody with ⟨pc, rfl, rfl, rfl⟩ | ⟨pc, rfl, ⟨pw, rfl, rfl⟩ | ⟨pw, po, rfl, rfl⟩ |
      ⟨pw, po, h81, rfl, rfl⟩ | ⟨pw, po, h81, h83, rfl, rfl⟩ | ⟨pw, po, h81, h83, rfl, rfl⟩⟩
    · simp [pc]
    · simp [not_lt.mpr pc, pw]
    · simp [not_lt.mpr pc, po]
    · simp [not_lt.mpr pc, not_lt.mpr pw, po, h81]
    · simp [not_lt.mpr pc, not_lt.mpr pw, po, h81, h83]
    · simp [not_lt.mpr pc, not_lt.mpr pw, po, h81, h83]

/-- C1. Cleanup guarantee of `howler_sendrcv`: whatever statuses the transport
returns and whether or not an output buffer is given, the call trace holds
exactly one `libusb_release_interface` if `libusb_claim_interface` was called
and returned a non-negative status and none otherwise, and exactly one
`libusb_attach_kernel_driver` if `libusb_detach_kernel_driver` was called and
returned a non-negative status and none otherwise. -/
theorem sendrcv_cleanup_guarantee (usb : Transport) (dev : howler_device)
    (cmd_buf output : Nat) :
    releases (howler_sendrcv usb dev cmd_buf output).trace =
        (if claimed (howler_sendrcv usb dev cmd_buf output).trace then 1 else 0) ∧
      attaches (howler_sendrcv usb dev cmd_buf output).trace =
        (if detached (howler_sendrcv usb dev cmd_buf output).trace then 1 else 0) := by
  have hp := sendrcv_path usb dev cmd_buf output
  generalize howler_sendrcv usb dev cmd_buf output = r at hp ⊢
  unfold SendRcvPath ClaimPath at hp
  simp only [call_query, call_detach, call_claim, call_write, call_read, call_release,
    call_attach, Transport.ev] at hp
  rcases hp with ⟨hq, rfl⟩ | ⟨hq, hd, rfl⟩ | ⟨pre, body, kda, ok, err, hpre, hbody, rfl⟩
  · simp [releases, attaches, claimed, detached, UsbCall.isRelease,
      UsbCall.isAttach, UsbCall.isClaim, UsbCall.isDetach]
  · simp [releases, attaches, claimed, detached,
      UsbCall.isRelease, UsbCall.isAttach, UsbCall.isClaim, UsbCall.isDetach, not_le.mpr hd]
  · rcases hpre with ⟨hq, rfl, rfl⟩ | ⟨hq, hd, rfl, rfl⟩ <;>
    rcases hbody with ⟨hc, rfl, rfl, rfl⟩ | ⟨hc, rfl, ⟨hw, rfl, rfl⟩ | ⟨hw, ho, rfl, rfl⟩ |
      ⟨hw, ho, h81, rfl, rfl⟩ | ⟨hw, ho, h81, h83, rfl, rfl⟩ | ⟨hw, ho, h81, h83, rfl, rfl⟩⟩ <;>
    simp [releases, attaches, claimed, detached, UsbCall.isRelease,
      UsbCall.isAttach, UsbCall.isClaim, UsbCall.isDetach, List.countP_cons] <;>
    (try split_ifs) <;> omega

/-- C4. Endpoint fallback: with an output buffer, and claim and write not
failing, the interrupt transfers of the exchange are the write on `0x02`
followed by reads on the shortest prefix of `[0x81, 0x83, 0x86]` whose last
transfer returned 0 (all three when none did); no endpoint is read twice, the
value returned is the status of the last read, and when `0x81` fails and `0x83`
succeeds the reads are `[0x81, 0x83]` and the value returned is 0. -/
theorem sendrcv_endpoint_fallback (usb : Transport) (dev : howler_device)
    (cmd_buf output : Nat) (ho : output ≠ 0)
    (hq : 0 ≤ usb (call_query dev.usb_handle))
    (hd : usb (call_query dev.usb_handle) ≠ 0 → 0 ≤ usb (call_detach dev.usb_handle))
    (hc : 0 ≤ usb (call_claim dev.usb_handle))
    (hw : 0 ≤ usb (call_write dev.usb_handle cmd_buf)) :
    reads (howler_sendrcv usb dev cmd_buf output).trace =
        fallback_reads (fun ep => usb (call_read dev.usb_handle output ep)) [0x81, 0x83, 0x86] ∧
      transfers (howler_sendrcv usb dev cmd_buf output).trace =
        (0x02, cmd_buf, 24, usb (call_write dev.usb_handle cmd_buf)) ::
          (reads (howler_sendrcv usb dev cmd_buf output).trace).map
            (fun ep => (ep, output, 24, usb (call_read dev.usb_handle output ep))) ∧
      (reads (howler_sendrcv usb dev cmd_buf output).trace).Nodup ∧
      (reads (howler_sendrcv usb dev cmd_buf output).trace).getLast?.map
          (fun ep => usb (call_read dev.usb_handle output ep)) =
        some (howler_sendrcv usb dev cmd_buf output).ret ∧
      (usb (call_read dev.usb_handle output 0x81) ≠ 0 →
        usb (call_read dev.usb_handle output 0x83) = 0 →
          reads (howler_sendrcv usb dev cmd_buf output).trace = [0x81, 0x83] ∧
            (howler_sendrcv usb dev cmd_buf output).ret = 0) := by
  have hp := sendrcv_path usb dev cmd_buf output
  generalize howler_sendrcv usb dev cmd_buf output = r at hp ⊢
  unfold SendRcvPath ClaimPath at hp
  simp only [call_query, call_detach, call_claim, call_write, call_read, call_release,
    call_attach, Transport.ev] at hp hq hd hc hw ⊢
  rcases hp with ⟨pq, rfl⟩ | ⟨pq, pd, rfl⟩ | ⟨pre, body, kda, ok, err, hpre, hbody, rfl⟩
  · omega
  · have := hd (by omega); omega
  · rcases hpre with ⟨pq, rfl, rfl⟩ | ⟨pq, pd, rfl, rfl⟩ <;>
    rcases hbody with ⟨pc, rfl, rfl, rfl⟩ | ⟨pc, rfl, ⟨pw, rfl, rfl⟩ | ⟨pw, po, rfl, rfl⟩ |
      ⟨pw, po, h81, rfl, rfl⟩ | ⟨pw, po, h81, h83, rfl, rfl⟩ | ⟨pw, po, h81, h83, rfl, rfl⟩⟩ <;>
    first
      | omega
      | contradiction
      | simp [reads, transfers, fallback_reads, h81, h83]
      | simp [reads, transfers, fallback_reads, h81]

/-- C4, at a concrete exchange: `0x81` fails with -7, `0x83` succeeds. -/
theorem sendrcv_endpoint_fallback_witness :
    reads (howler_sendrcv (Transport.ofStatuses 1 0 0 0 (-7) 0 (-1) 0 0) dev7 100 200).trace =
        [0x81, 0x83] ∧
      (howler_sendrcv (Transport.ofStatuses 1 0 0 0 (-7) 0 (-1) 0 0) dev7 100 200).ret = 0 :=
  (sendrcv_endpoint_fallback (Transport.ofStatuses 1 0 0 0 (-7) 0 (-1) 0 0) dev7 100 200
    (by decide) (by decide) (by decide) (by decide) (by decide)).2.2.2.2
    (by decide) (by decide)

/-- C5. All three reads fail: with an output buffer, claim and write
succeeding and the transfers on `0x81`, `0x83` and `0x86` all returning a
non-zero status, the value returned is the status of the transfer on `0x86`,
the interface is released exactly once, and the kernel driver is reattached
exactly once if it was detached in this call (and not at all otherwise). -/
theorem sendrcv_all_reads_fail (usb : Transport) (dev : howler_device)
    (cmd_buf output : Nat) (ho : output ≠ 0)
    (hq : 0 ≤ usb (call_query dev.usb_handle))
    (hd : usb (call_query dev.usb_handle) ≠ 0 → 0 ≤ usb (call_detach dev.usb_handle))
    (hc : 0 ≤ usb (call_claim dev.usb_handle))
    (hw : 0 ≤ usb (call_write dev.usb_handle cmd_buf))
    (h1 : usb (call_read dev.usb_handle output 0x81) ≠ 0)
    (h3 : usb (call_read dev.usb_handle output 0x83) ≠ 0)
    (h6 : usb (call_read dev.usb_handle output 0x86) ≠ 0) :
    (howler_sendrcv usb dev cmd_buf output).ret = usb (call_read dev.usb_handle output 0x86) ∧
      reads (howler_sendrcv usb dev cmd_buf output).trace = [0x81, 0x83, 0x86] ∧
      releases (howler_sendrcv usb dev cmd_buf output).trace = 1 ∧
      attaches (howler_sendrcv usb dev cmd_buf output).trace =
        (if detached (howler_sendrcv usb dev cmd_buf output).trace then 1 else 0) := by
  have hp := sendrcv_path usb dev cmd_buf output
  generalize howler_sendrcv usb dev cmd_buf output = r at hp ⊢
  unfold SendRcvPath ClaimPath at hp
  simp only [call_query, call_detach, call_claim, call_write, call_read, call_release,
    call_attach, Transport.ev] at hp hq hd hc hw h1 h3 h6 ⊢
  rcases hp with ⟨pq, rfl⟩ | ⟨pq, pd, rfl⟩ | ⟨pre, body, kda, ok, err, hpre, hbody, rfl⟩
  · omega
  · have := hd (by omega); omega
  · rcases hpre with ⟨pq, rfl, rfl⟩ | ⟨pq, pd, rfl, rfl⟩ <;>
    rcases hbody with ⟨pc, rfl, rfl, rfl⟩ | ⟨pc, rfl, ⟨pw, rfl, rfl⟩ | ⟨pw, po, rfl, rfl⟩ |
      ⟨pw, po, h81, rfl, rfl⟩ | ⟨pw, po, h81, h83, rfl, rfl⟩ | ⟨pw, po, h81, h83, rfl, rfl⟩⟩ <;>
    first
      | omega
      | contradiction
      | (simp [reads, transfers, releases, attaches, detached, UsbCall.isRelease,
          UsbCall.isAttach, UsbCall.isDetach, List.countP_cons] <;> (try split_ifs) <;> omega)

/-- C5, at a concrete exchange: the driver is active and detached, and the
three reads fail with -7, -4 and -9. -/
theorem sendrcv_all_reads_fail_witness :
    (howler_sendrcv (Transport.ofStatuses 1 0 0 0 (-7) (-4) (-9) 0 0) dev7 100 200).ret = -9 ∧
      releases (howler_sendrcv (Transport.ofStatuses 1 0 0 0 (-7) (-4) (-9) 0 0)
        dev7 100 200).trace = 1 :=
  have h := sendrcv_all_reads_fail (Transport.ofStatuses 1 0 0 0 (-7) (-4) (-9) 0 0) dev7 100 200
    (by decide) (by decide) (by decide) (by decide) (by decide) (by decide) (by decide)
    (by decide)
  ⟨h.1, h.2.2.1⟩

/-- C6. Claim failure: when `libusb_claim_interface` returns a negative
status, no interrupt transfer is attempted, `libusb_release_interface` is not
called, `libusb_attach_kernel_driver` is called exactly once if the kernel
driver was detached earlier in this call and not at all otherwise, and the
value returned is the claim's status. -/
theorem sendrcv_claim_fails (usb : Transport) (dev : howler_device)
    (cmd_buf output : Nat)
    (hq : 0 ≤ usb (call_query dev.usb_handle))
    (hd : usb (call_query dev.usb_handle) ≠ 0 → 0 ≤ usb (call_detach dev.usb_handle))
    (hc : usb (call_claim dev.usb_handle) < 0) :
    transfers (howler_sendrcv usb dev cmd_buf output).trace = [] ∧
      releases (howler_sendrcv usb dev cmd_buf output).trace = 0 ∧
      attaches (howler_sendrcv usb dev cmd_buf output).trace =
        (if detached (howler_sendrcv usb dev cmd_buf output).trace then 1 else 0) ∧
      (howler_sendrcv usb dev cmd_buf output).ret = usb (call_claim dev.usb_handle) := by
  have hp := sendrcv_path usb dev cmd_buf output
  generalize howler_sendrcv usb dev cmd_buf output = r at hp ⊢
  unfold SendRcvPath ClaimPath at hp
  simp only [call_query, call_detach, call_claim, call_write, call_read, call_release,
    call_attach, Transport.ev] at hp hq hd hc ⊢
  rcases hp with ⟨pq, rfl⟩ | ⟨pq, pd, rfl⟩ | ⟨pre, body, kda, ok, err, hpre, hbody, rfl⟩
  · omega
  · have := hd (by omega); omega
  · rcases hpre with ⟨pq, rfl, rfl⟩ | ⟨pq, pd, rfl, rfl⟩ <;>
    rcases hbody with ⟨pc, rfl, rfl, rfl⟩ | ⟨pc, rfl, ⟨pw, rfl, rfl⟩ | ⟨pw, po, rfl, rfl⟩ |
      ⟨pw, po, h81, rfl, rfl⟩ | ⟨pw, po, h81, h83, rfl, rfl⟩ | ⟨pw, po, h81, h83, rfl, rfl⟩⟩ <;>
    first
      | omega
      | (simp [transfers, releases, attaches, detached, UsbCall.isRelease,
          UsbCall.isAttach, UsbCall.isDetach, List.countP_cons] <;> (try split_ifs) <;> omega)

/-- C6, at a concrete exchange: the driver is detached, then the claim fails
with -6; the reattach is the only cleanup. -/
theorem sendrcv_claim_fails_witness :
    transfers (howler_sendrcv (Transport.ofStatuses 1 0 (-6) 0 0 0 0 0 0) dev7 100 200).trace
        = [] ∧
      (howler_sendrcv (Transport.ofStatuses 1 0 (-6) 0 0 0 0 0 0) dev7 100 200).ret = -6 :=
  have h := sendrcv_claim_fails (Transport.ofStatuses 1 0 (-6) 0 0 0 0 0 0) dev7 100 200
    (by decide) (by decide) (by decide)
  ⟨h.1, h.2.2.2⟩

/-- C7. No output buffer: when `output` is `NULL` and claim and write succeed,
the write is the only interrupt transfer (no read on any endpoint), the
interface is released exactly once, the kernel driver is reattached (once) if
and only if it was detached in this call, and the value returned is 0. -/
theorem sendrcv_no_output (usb : Transport) (dev : howler_device)
    (cmd_buf output : Nat) (ho : output = 0)
    (hq : 0 ≤ usb (call_query dev.usb_handle))
    (hd : usb (call_query dev.usb_handle) ≠ 0 → 0 ≤ usb (call_detach dev.usb_handle))
    (hc : 0 ≤ usb (call_claim dev.usb_handle))
    (hw : usb (call_write dev.usb_handle cmd_buf) = 0) :
    transfers (howler_sendrcv usb dev cmd_buf output).trace = [(0x02, cmd_buf, 24, 0)] ∧
      reads (howler_sendrcv usb dev cmd_buf output).trace = [] ∧
      releases (howler_sendrcv usb dev cmd_buf output).trace = 1 ∧
      attaches (howler_sendrcv usb dev cmd_buf output).trace =
        (if detached (howler_sendrcv usb dev cmd_buf output).trace then 1 else 0) ∧
      (howler_sendrcv usb dev cmd_buf output).ret = 0 := by
  have hp := sendrcv_path usb dev cmd_buf output
  generalize howler_sendrcv usb dev cmd_buf output = r at hp ⊢
  unfold SendRcvPath ClaimPath at hp
  simp only [call_query, call_detach, call_claim, call_write, call_read, call_release,
    call_attach, Transport.ev] at hp hq hd hc hw ⊢
  rcases hp with ⟨pq, rfl⟩ | ⟨pq, pd, rfl⟩ | ⟨pre, body, kda, ok, err, hpre, hbody, rfl⟩
  · omega
  · have := hd (by omega); omega
  · rcases hpre with ⟨pq, rfl, rfl⟩ | ⟨pq, pd, rfl, rfl⟩ <;>
    rcases hbody with ⟨pc, rfl, rfl, rfl⟩ | ⟨pc, rfl, ⟨pw, rfl, rfl⟩ | ⟨pw, po, rfl, rfl⟩ |
      ⟨pw, po, h81, rfl, rfl⟩ | ⟨pw, po, h81, h83, rfl, rfl⟩ | ⟨pw, po, h81, h83, rfl, rfl⟩⟩ <;>
    first
      | omega
      | contradiction
      | (simp [reads, transfers, releases, attaches, detached, UsbCall.isRelease,
          UsbCall.isAttach, UsbCall.isDetach, List.countP_cons, hw] <;> (try split_ifs) <;> omega)

/-- C7, at a concrete exchange without output buffer and without an active
kernel driver. -/
theorem sendrcv_no_output_witness :
    reads (howler_sendrcv (Transport.ofStatuses 0 0 0 0 (-1) (-1) (-1) 0 0) dev7 100 0).trace
        = [] ∧
      (howler_sendrcv (Transport.ofStatuses 0 0 0 0 (-1) (-1) (-1) 0 0) dev7 100 0).ret = 0 :=
  have h := sendrcv_no_output (Transport.ofStatuses 0 0 0 0 (-1) (-1) (-1) 0 0) dev7 100 0
    rfl (by decide) (by decide) (by decide) (by decide)
  ⟨h.2.1, h.2.2.2.2⟩

/-- C8, refuted as stated: a query that fails with -4, and a detach that fails
with -4, both make `howler_sendrcv` return -1 and not the code reported. -/
theorem sendrcv_query_code_not_returned :
    (Transport.ofStatuses (-4) 0 0 0 0 0 0 0 0 (call_query dev7.usb_handle) = -4 ∧
      (howler_sendrcv (Transport.ofStatuses (-4) 0 0 0 0 0 0 0 0) dev7 100 200).ret = -1 ∧
      (howler_sendrcv (Transport.ofStatuses (-4) 0 0 0 0 0 0 0 0) dev7 100 200).ret ≠
        Transport.ofStatuses (-4) 0 0 0 0 0 0 0 0 (call_query dev7.usb_handle)) ∧
    (Transport.ofStatuses 1 (-4) 0 0 0 0 0 0 0 (call_detach dev7.usb_handle) = -4 ∧
      (howler_sendrcv (Transport.ofStatuses 1 (-4) 0 0 0 0 0 0 0) dev7 100 200).ret = -1 ∧
      (howler_sendrcv (Transport.ofStatuses 1 (-4) 0 0 0 0 0 0 0) dev7 100 200).ret ≠
        Transport.ofStatuses 1 (-4) 0 0 0 0 0 0 0 (call_detach dev7.usb_handle)) := by
  simp [sendrcv_ret, Transport.ofStatuses, call_query, call_detach]

/-- C8, amended: a failure status of the claim, of the write or of the last
read attempted is the value returned; a failure of the kernel-driver query or
of the detach makes `howler_sendrcv` return -1 whatever code was reported. In
each case the exchange stops there: no later stage is attempted. -/
theorem sendrcv_error_codes (usb : Transport) (dev : howler_device) (cmd_buf output : Nat) :
    (usb (call_query dev.usb_handle) < 0 →
        (howler_sendrcv usb dev cmd_buf output).ret = -1 ∧
        (howler_sendrcv usb dev cmd_buf output).trace = [usb.ev (call_query dev.usb_handle)]) ∧
      (0 < usb (call_query dev.usb_handle) → usb (call_detach dev.usb_handle) < 0 →
        (howler_sendrcv usb dev cmd_buf output).ret = -1 ∧
        (howler_sendrcv usb dev cmd_buf output).trace =
          [usb.ev (call_query dev.usb_handle), usb.ev (call_detach dev.usb_handle)]) ∧
      (0 ≤ usb (call_query dev.usb_handle) →
        (usb (call_query dev.usb_handle) ≠ 0 → 0 ≤ usb (call_detach dev.usb_handle)) →
        (usb (call_claim dev.usb_handle) < 0 →
          (howler_sendrcv usb dev cmd_buf output).ret = usb (call_claim dev.usb_handle) ∧
          transfers (howler_sendrcv usb dev cmd_buf output).trace = []) ∧
        (0 ≤ usb (call_claim dev.usb_handle) → usb (call_write dev.usb_handle cmd_buf) < 0 →
          (howler_sendrcv usb dev cmd_buf output).ret = usb (call_write dev.usb_handle cmd_buf) ∧
          reads (howler_sendrcv usb dev cmd_buf output).trace = []) ∧
        (0 ≤ usb (call_claim dev.usb_handle) → 0 ≤ usb (call_write dev.usb_handle cmd_buf) →
          output ≠ 0 →
          ∀ ep, (reads (howler_sendrcv usb dev cmd_buf output).trace).getLast? = some ep →
            usb (call_read dev.usb_handle output ep) ≠ 0 →
            ep = 0x86 ∧
            (howler_sendrcv usb dev cmd_buf output).ret =
              usb (call_read dev.usb_handle output ep))) := by
  have hp := sendrcv_path usb dev cmd_buf output
  generalize howler_sendrcv usb dev cmd_buf output = r at hp ⊢
  unfold SendRcvPath ClaimPath at hp
  simp only [call_query, call_detach, call_claim, call_write, call_read, call_release,
    call_attach, Transport.ev] at hp ⊢
  rcases hp with ⟨pq, rfl⟩ | ⟨pq, pd, rfl⟩ | ⟨pre, body, kda, ok, err, hpre, hbody, rfl⟩
  · refine ⟨fun _ => ⟨rfl, rfl⟩, fun h => ?_, fun h => ?_⟩ <;> omega
  · refine ⟨fun h => ?_, fun _ _ => ⟨rfl, rfl⟩, fun _ h => ?_⟩
    · omega
    · have := h (by omega); omega
  · refine ⟨fun h => ?_, fun h1 h2 => ?_, fun _ _ => ?_⟩
    · rcases hpre with ⟨pq, -, -⟩ | ⟨pq, -, -, -⟩ <;> omega
    · rcases hpre with ⟨pq, -, -⟩ | ⟨pq, pd, -, -⟩ <;> omega
    · rcases hpre with ⟨pq, rfl, rfl⟩ | ⟨pq, pd, rfl, rfl⟩ <;>
      rcases hbody with ⟨pc, rfl, rfl, rfl⟩ | ⟨pc, rfl, ⟨pw, rfl, rfl⟩ | ⟨pw, po, rfl, rfl⟩ |
        ⟨pw, po, h81, rfl, rfl⟩ | ⟨pw, po, h81, h83, rfl, rfl⟩ | ⟨pw, po, h81, h83, rfl, rfl⟩⟩ <;>
      refine ⟨fun h => ?_, fun h1 h2 => ?_, fun h1 h2 h3 ep hep hne => ?_⟩ <;>
      first
        | omega
        | contradiction
        | (simp [reads, transfers] at hep ⊢; done)
        | (simp [reads, transfers] at hep; subst hep; first | contradiction | exact ⟨rfl, rfl⟩)
        | simp [reads, transfers]

/-- C8 amended, at concrete exchanges: a claim failing with -6 and a write
failing with -9 are returned as they are. -/
theorem sendrcv_error_codes_witness :
    (howler_sendrcv (Transport.ofStatuses 0 0 (-6) 0 0 0 0 0 0) dev7 100 200).ret = -6 ∧
      (howler_sendrcv (Transport.ofStatuses 0 0 0 (-9) 0 0 0 0 0) dev7 100 200).ret = -9 :=
  ⟨((sendrcv_error_codes (Transport.ofStatuses 0 0 (-6) 0 0 0 0 0 0) dev7 100 200).2.2
      (by decide) (by decide)).1 (by decide) |>.1,
   ((sendrcv_error_codes (Transport.ofStatuses 0 0 0 (-9) 0 0 0 0 0) dev7 100 200).2.2
      (by decide) (by decide)).2.1 (by decide) (by decide) |>.1⟩

/-- C9. Cleanup statuses never change the result: two runs on transports that
agree on every call other than `libusb_release_interface` and
`libusb_attach_kernel_driver` return the same value. -/
theorem sendrcv_cleanup_status_ignored (usb1 usb2 : Transport) (dev : howler_device)
    (cmd_buf output : Nat)
    (hagree : ∀ c : UsbCall, c.isRelease = false → c.isAttach = false → usb1 c = usb2 c) :
    (howler_sendrcv usb1 dev cmd_buf output).ret =
      (howler_sendrcv usb2 dev cmd_buf output).ret := by
  rw [sendrcv_ret, sendrcv_ret]
  rw [hagree (call_query dev.usb_handle) rfl rfl, hagree (call_detach dev.usb_handle) rfl rfl,
    hagree (call_claim dev.usb_handle) rfl rfl,
    hagree (call_write dev.usb_handle cmd_buf) rfl rfl,
    hagree (call_read dev.usb_handle output 0x81) rfl rfl,
    hagree (call_read dev.usb_handle output 0x83) rfl rfl,
    hagree (call_read dev.usb_handle output 0x86) rfl rfl]

/-- C9, at two concrete transports: release and reattach succeed on one and
fail with -5 and -4 on the other, and the read on `0x81` fails on both. -/
theorem sendrcv_cleanup_status_ignored_witness :
    (howler_sendrcv (Transport.ofStatuses 1 0 0 0 (-7) 0 0 0 0) dev7 100 200).ret =
      (howler_sendrcv (Transport.ofStatuses 1 0 0 0 (-7) 0 0 (-5) (-4)) dev7 100 200).ret :=
  sendrcv_cleanup_status_ignored (Transport.ofStatuses 1 0 0 0 (-7) 0 0 0 0)
    (Transport.ofStatuses 1 0 0 0 (-7) 0 0 (-5) (-4)) dev7 100 200
    (fun c h1 h2 => by
      cases c <;> first
        | rfl
        | (simp [UsbCall.isRelease] at h1; done)
        | simp [UsbCall.isAttach] at h2)

/-- C2. With session start and listing succeeding, `howler_init` returns
`HOWLER_SUCCESS` with a registry whose `nDevices` is the number of list
positions holding a family member whose `libusb_open` returned a non-negative
status, and every entry below `nDevices` was made from such a position: no
device failing the identity filter or the open is ever among the entries. -/
theorem init_registry_size (hh : HowlerH) (w : UsbWorld) (ctx_ptr : Nat)
    (devs : List libusb_device) (hp : ctx_ptr ≠ 0) (hi : w.init_status = 0)
    (hl : w.device_list = .listed devs) :
    ∃ r reg, howler_init hh w ctx_ptr = .ok r ∧ r.ret = hh.HOWLER_SUCCESS ∧
      r.ctx = some reg ∧
      reg.nDevices = devs.enum.countP
        (fun p => decide (is_howler hh p.2 = 1) && decide (0 ≤ w.open_status p.1)) ∧
      ∀ j, j < reg.nDevices →
        ∃ i d, devs[i]? = some d ∧ is_howler hh d = 1 ∧ 0 ≤ w.open_status i ∧
          reg.devices[j]? = some (some ⟨d, w.open_handle i, List.replicate 6 0⟩) := by
  obtain ⟨howlers, tr, lost, h1, h2⟩ := howler_init_listed hh w ctx_ptr devs hp hi hl
  refine ⟨_, _, h1, rfl, rfl, ?_, ?_⟩
  · simp only [List.enum]
    exact opened_length hh w devs 0
  · intro j hj
    simp only at hj
    have hmem : (opened hh w devs 0)[j] ∈ opened hh w devs 0 := List.getElem_mem hj
    obtain ⟨k, d, e1, e2, e3, e4⟩ := mem_opened hh w devs 0 _ hmem
    refine ⟨k, d, e1, e2, by simpa using e3, ?_⟩
    have h3 : (howlers.take (opened hh w devs 0).length)[j]? = howlers[j]? := by
      rw [List.getElem?_take]
      simp [hj]
    simp only
    rw [← h3, h2]
    simp only [List.getElem?_map, List.getElem?_eq_getElem hj, Option.map_some']
    rw [e4]
    simp

/-- C2, at a concrete world: of four listed devices one is no family member
and one cannot be opened, so the registry has two entries. -/
theorem init_registry_size_witness :
    ∃ r reg, howler_init hh_example world_example 1 = .ok r ∧ r.ret = 0 ∧
      r.ctx = some reg ∧ reg.nDevices = 2 := by
  obtain ⟨r, reg, h1, h2, h3, h4, _⟩ := init_registry_size hh_example world_example 1
    [⟨10, ⟨0x3EB, 0x6800⟩⟩, ⟨11, ⟨0x46D, 0x6800⟩⟩, ⟨12, ⟨0x3EB, 0x6801⟩⟩, ⟨13, ⟨0x3EB, 0x6801⟩⟩]
    (by decide) rfl rfl
  exact ⟨r, reg, h1, h2, h3, h4.trans (by decide)⟩

/-- C3. `is_howler` returns 1 exactly when `idVendor` is `HOWLER_VENDOR_ID` and
`idProduct` is one of the `MAX_HOWLER_DEVICE_IDS` entries of
`HOWLER_DEVICE_ID`, and 0 otherwise; reordering the table does not change the
result; the right vendor with an unknown product, and a known product with a
wrong vendor, are both rejected. -/
theorem is_howler_spec (hh : HowlerH) (d : libusb_device) :
    (is_howler hh d = 1 ↔
        d.desc.idVendor = hh.HOWLER_VENDOR_ID ∧
          ∃ i, i < hh.MAX_HOWLER_DEVICE_IDS ∧ hh.HOWLER_DEVICE_ID[i]? = some d.desc.idProduct) ∧
      (is_howler hh d = 0 ∨ is_howler hh d = 1) ∧
      (∀ ids : List Nat, ids.Perm hh.HOWLER_DEVICE_ID →
        is_howler { hh with HOWLER_DEVICE_ID := ids } d = is_howler hh d) ∧
      (d.desc.idVendor = hh.HOWLER_VENDOR_ID → d.desc.idProduct ∉ hh.HOWLER_DEVICE_ID →
        is_howler hh d = 0) ∧
      (d.desc.idProduct ∈ hh.HOWLER_DEVICE_ID → d.desc.idVendor ≠ hh.HOWLER_VENDOR_ID →
        is_howler hh d = 0) := by
  have hidx : (∃ i, i < hh.MAX_HOWLER_DEVICE_IDS ∧
      hh.HOWLER_DEVICE_ID[i]? = some d.desc.idProduct) ↔
      d.desc.idProduct ∈ hh.HOWLER_DEVICE_ID := by
    rw [List.mem_iff_getElem?]
    constructor
    · rintro ⟨i, _, h⟩
      exact ⟨i, h⟩
    · rintro ⟨i, h⟩
      refine ⟨i, ?_, h⟩
      obtain ⟨hlt, _⟩ := List.getElem?_eq_some_iff.mp h
      exact hlt
  refine ⟨?_, ?_, ?_, ?_, ?_⟩
  · rw [hidx, is_howler_eq]
    split_ifs with h <;> simp [h]
  · rw [is_howler_eq]
    split_ifs <;> simp
  · intro ids hperm
    rw [is_howler_eq, is_howler_eq]
    simp only [hperm.mem_iff]
  · intro hv hm
    rw [is_howler_eq]
    simp [hm]
  · intro _ hv
    rw [is_howler_eq]
    simp [hv]

/-- C3, at a concrete table: a listed product under the right vendor is
accepted, also with the table reversed; a wrong vendor is rejected. -/
theorem is_howler_spec_witness :
    is_howler hh_example ⟨12, ⟨0x3EB, 0x6801⟩⟩ = 1 ∧
      is_howler { hh_example with HOWLER_DEVICE_ID := [0x6801, 0x6800] } ⟨12, ⟨0x3EB, 0x6801⟩⟩ =
        is_howler hh_example ⟨12, ⟨0x3EB, 0x6801⟩⟩ ∧
      is_howler hh_example ⟨11, ⟨0x46D, 0x6800⟩⟩ = 0 :=
  ⟨(is_howler_spec hh_example ⟨12, ⟨0x3EB, 0x6801⟩⟩).1.mpr ⟨rfl, 1, by decide, rfl⟩,
   (is_howler_spec hh_example ⟨12, ⟨0x3EB, 0x6801⟩⟩).2.2.1 [0x6801, 0x6800]
     (List.Perm.swap 0x6800 0x6801 []),
   (is_howler_spec hh_example ⟨11, ⟨0x46D, 0x6800⟩⟩).2.2.2.2 (by decide) (by decide)⟩

/-- C10. Teardown of a registry whose first `nDevices` slots hold the connected
devices `ds`: `howler_destroy` calls `libusb_close` on the handle of each of
them, once per device and in order, closes no other handle, and then, after
every close, calls `libusb_exit` exactly once, on the registry's context. -/
theorem destroy_closes_all (ctx : howler_context) (ds : List howler_device)
    (hds : ctx.devices.take ctx.nDevices = ds.map some) (hlen : ds.length = ctx.nDevices) :
    ∃ tr, howler_destroy (some ctx) = some tr ∧
      tr = (ds.map (fun d => d.usb_handle)).map SessionCall.libusb_close ++
        [.free_devices, .libusb_exit ctx.usb_ctx, .free_context] ∧
      (∀ h, tr.count (.libusb_close h) = (ds.map (fun d => d.usb_handle)).count h) ∧
      (∀ c, tr.count (.libusb_exit c) = if c = ctx.usb_ctx then 1 else 0) := by
  have hloop := destroy_loop_eq ctx ds hds hlen ctx.nDevices 0 (by omega) (by omega)
  have inj : Function.Injective SessionCall.libusb_close := by
    intro a b h
    injection h
  refine ⟨_, ?_, rfl, ?_, ?_⟩
  · simp [howler_destroy, hloop]
  · intro h
    rw [List.count_append, List.count_map_of_injective _ _ inj]
    simp
  · intro c
    rw [List.count_append]
    have h0 : ((ds.map (fun d => d.usb_handle)).map SessionCall.libusb_close).count
        (.libusb_exit c) = 0 := by
      rw [List.count_eq_zero]
      simp
    rw [h0]
    by_cases hc : c = ctx.usb_ctx <;> simp [hc, List.count_cons]

/-- C10, at a concrete registry: two connected devices, handles 100 and 103. -/
theorem destroy_closes_all_witness :
    howler_destroy (some registry_example) =
      some [.libusb_close 100, .libusb_close 103, .free_devices, .libusb_exit 50,
        .free_context] := by
  obtain ⟨tr, h1, h2, _⟩ := destroy_closes_all registry_example
    [⟨⟨10, ⟨0x3EB, 0x6800⟩⟩, 100, List.replicate 6 0⟩,
     ⟨⟨13, ⟨0x3EB, 0x6801⟩⟩, 103, List.replicate 6 0⟩] rfl rfl
  rw [h1, h2]
  rfl

/-! ### The calls made by `howler_init` -/

/-- When the second loop of `howler_init` returns, the calls it added to the
trace are those of `open_calls`. -/
theorem open_loop_trace (hh : HowlerH) (w : UsbWorld) (devs : List libusb_device) (i : Nat)
    (s s' : ScanState) (h : open_loop hh w devs i s = .ok s') :
    s'.trace = s.trace ++ open_calls hh w devs i := by
  induction devs generalizing i s with
  | nil =>
      simp only [open_loop, Except.ok.injEq] at h
      simp [open_calls, h]
  | cons d rest ih =>
      rw [open_loop] at h
      rw [open_calls]
      by_cases hd : is_howler hh d = 1
      · have hd0 : ¬ is_howler hh d = 0 := by rw [hd]; decide
        simp only [hd0, if_false] at h
        simp only [hd, if_true]
        by_cases he : w.open_status i < 0
        · simp only [he, if_true] at h
          have := ih (i + 1) _ h
          rw [this]
          by_cases ha : w.open_status i = LIBUSB_ERROR_ACCESS <;> simp [ha]
        · simp only [he, if_false] at h
          have ha : ¬ w.open_status i = LIBUSB_ERROR_ACCESS := by
            unfold LIBUSB_ERROR_ACCESS
            omega
          by_cases h1 : s.howler_idx < s.nHowlers
          · by_cases h2 : s.howler_idx < s.howlers.length
            · simp only [h1, h2, not_true_eq_false, if_false] at h
              have := ih (i + 1) _ h
              rw [this]
              simp [ha]
            · simp [h1, h2] at h
          · simp [h1] at h
      · have hd0 : is_howler hh d = 0 := by
          by_contra c
          exact hd ((is_howler_ne_zero hh d).mp c)
        simp only [hd0, if_true] at h
        simp only [hd, if_false]
        exact ih (i + 1) s h

/-- On a successful listing `howler_init` returns `HOWLER_SUCCESS`: the
registry holds the entries `opened` describes, and the calls made are the
start of the session, the listing, the calls of `open_calls` and the release
of the list. -/
theorem howler_init_listed_trace (hh : HowlerH) (w : UsbWorld) (ctx_ptr : Nat)
    (devs : List libusb_device) (hp : ctx_ptr ≠ 0) (hi : w.init_status = 0)
    (hl : w.device_list = .listed devs) :
    ∃ howlers lost,
      howler_init hh w ctx_ptr =
        .ok ⟨hh.HOWLER_SUCCESS, some ⟨w.usb_ctx, (opened hh w devs 0).length, howlers⟩,
          [.libusb_init, .libusb_set_debug w.usb_ctx 3, .libusb_get_device_list w.usb_ctx] ++
            open_calls hh w devs 0 ++ [.libusb_free_device_list 1],
          lost⟩ ∧
      howlers.take (opened hh w devs 0).length = (opened hh w devs 0).map some ∧
      howlers.length = devs.countP (fun d => decide (is_howler hh d = 1)) := by
  obtain ⟨s', h1, h2, h3, h4, h5⟩ := open_loop_ok hh w devs 0
    ⟨count_howlers hh devs 0, 0, List.replicate (count_howlers hh devs 0) none,
      [.libusb_init, .libusb_set_debug w.usb_ctx 3, .libusb_get_device_list w.usb_ctx]⟩
    (by simp [count_howlers_eq]) (by simp)
  have htr := open_loop_trace hh w devs 0 _ s' h1
  simp only [Nat.zero_add, List.take_zero, List.nil_append] at h2 h5
  simp only [List.length_replicate, count_howlers_eq, Nat.zero_add] at h4
  refine ⟨s'.howlers,
    if count_howlers hh devs 0 = 0 then [⟨w.usb_ctx, count_howlers hh devs 0, []⟩] else [],
    ?_, ?_, h4⟩
  · unfold howler_init
    simp only [hp, if_false, hi, ne_eq, not_true_eq_false, hl, h1]
    simp [h3, h2, htr]
  · rw [← h2]
    exact h5

theorem open_attempts_append (a b : List SessionCall) :
    open_attempts (a ++ b) = open_attempts a ++ open_attempts b := by
  induction a with
  | nil => rfl
  | cons c rest ih => cases c <;> simp [open_attempts, ih]

theorem open_attempts_open_calls (hh : HowlerH) (w : UsbWorld) (devs : List libusb_device)
    (i : Nat) :
    open_attempts (open_calls hh w devs i) =
      ((devs.enumFrom i).filter (fun p => decide (is_howler hh p.2 = 1))).map (fun p => p.1) := by
  induction devs generalizing i with
  | nil => simp [open_calls, open_attempts]
  | cons d rest ih =>
      rw [open_calls, List.enumFrom_cons]
      by_cases hd : is_howler hh d = 1
      · by_cases ha : w.open_status i = LIBUSB_ERROR_ACCESS <;>
          simp [hd, ha, open_attempts, ih, List.filter_cons]
      · simp [hd, ih, List.filter_cons]

theorem warnings_open_calls (hh : HowlerH) (w : UsbWorld) (devs : List libusb_device)
    (i : Nat) :
    warnings (open_calls hh w devs i) =
      (devs.enumFrom i).countP
        (fun p => decide (is_howler hh p.2 = 1) &&
          decide (w.open_status p.1 = LIBUSB_ERROR_ACCESS)) := by
  induction devs generalizing i with
  | nil => simp [open_calls, warnings]
  | cons d rest ih =>
      have ih' := ih (i + 1)
      unfold warnings at ih' ⊢
      rw [open_calls, List.enumFrom_cons, List.countP_cons]
      by_cases hd : is_howler hh d = 1
      · by_cases ha : w.open_status i = LIBUSB_ERROR_ACCESS <;>
          simp [hd, ha, ih', List.count_cons]
      · simp [hd, ih']

theorem open_calls_kinds (hh : HowlerH) (w : UsbWorld) (devs : List libusb_device) (i : Nat)
    (c : SessionCall) (hc : c ∈ open_calls hh w devs i) :
    c = .warning ∨ ∃ k d, devs[k]? = some d ∧ is_howler hh d = 1 ∧
      c = .libusb_open (i + k) d (w.open_status (i + k)) := by
  induction devs generalizing i with
  | nil => simp [open_calls] at hc
  | cons d rest ih =>
      rw [open_calls] at hc
      have step : c ∈ open_calls hh w rest (i + 1) →
          c = .warning ∨ ∃ k d', (d :: rest)[k]? = some d' ∧ is_howler hh d' = 1 ∧
            c = .libusb_open (i + k) d' (w.open_status (i + k)) := by
        intro hmem
        rcases ih (i + 1) hmem with h | ⟨k, d', h1, h2, h3⟩
        · exact Or.inl h
        · refine Or.inr ⟨k + 1, d', by simpa using h1, h2, ?_⟩
          rw [h3, show i + (k + 1) = i + 1 + k by omega]
      split_ifs at hc with hd ha
      · rcases List.mem_cons.mp hc with rfl | hmem
        · exact Or.inr ⟨0, d, by simp, hd, by simp⟩
        · rcases List.mem_append.mp hmem with h | h
          · exact Or.inl (by simpa using h)
          · exact step h
      · rcases List.mem_cons.mp hc with rfl | hmem
        · exact Or.inr ⟨0, d, by simp, hd, by simp⟩
        · exact step (by simpa using hmem)
      · exact step hc

theorem open_calls_no_member (hh : HowlerH) (w : UsbWorld) (devs : List libusb_device)
    (i : Nat) (hno : ∀ d ∈ devs, is_howler hh d = 0) :
    open_calls hh w devs i = [] ∧ opened hh w devs i = [] := by
  induction devs generalizing i with
  | nil => simp [open_calls, opened]
  | cons d rest ih =>
      have hd : is_howler hh d = 0 := hno d (List.mem_cons_self d rest)
      have hrest := ih (i + 1) (fun x hx => hno x (List.mem_cons_of_mem d hx))
      rw [open_calls, opened]
      simp [hd, hrest.1, hrest.2]

theorem opened_eq_filter (hh : HowlerH) (w : UsbWorld) (devs : List libusb_device) (i : Nat) :
    opened hh w devs i =
      ((devs.enumFrom i).filter
          (fun p => decide (is_howler hh p.2 = 1) && decide (0 ≤ w.open_status p.1))).map
        (fun p => ⟨p.2, w.open_handle p.1, List.replicate 6 0⟩) := by
  induction devs generalizing i with
  | nil => simp [opened]
  | cons d rest ih =>
      rw [opened, List.enumFrom_cons, List.filter_cons, ih (i + 1)]
      by_cases hd : is_howler hh d = 1 <;> by_cases he : 0 ≤ w.open_status i <;> simp [hd, he]

theorem opened_add_failed (hh : HowlerH) (w : UsbWorld) (devs : List libusb_device) (i : Nat) :
    (opened hh w devs i).length +
        (devs.enumFrom i).countP
          (fun p => decide (is_howler hh p.2 = 1) && decide (w.open_status p.1 < 0)) =
      devs.countP (fun d => decide (is_howler hh d = 1)) := by
  induction devs generalizing i with
  | nil => simp [opened]
  | cons d rest ih =>
      have := ih (i + 1)
      rw [opened, List.enumFrom_cons, List.countP_cons, List.countP_cons]
      by_cases hd : is_howler hh d = 1
      · by_cases he : 0 ≤ w.open_status i
        · have he2 : ¬ w.open_status i < 0 := not_lt.mpr he
          simp only [hd, he, he2, and_self, if_true, decide_True, decide_False, Bool.and_false,
            Bool.and_true, List.length_cons, Bool.false_eq_true, if_false]
          omega
        · have he2 : w.open_status i < 0 := not_le.mp he
          simp only [hd, he, he2, and_false, if_false, decide_True, Bool.and_true, if_true]
          omega
      · simp only [hd, false_and, if_false, decide_False, Bool.false_and, Bool.false_eq_true]
        omega

/-- C11. Teardown of the `NULL` registry is a no-op: `howler_destroy` returns
without making any call (no `libusb_close`, no `libusb_exit`, no `free`), and
so does every one of any number of such calls. -/
theorem destroy_null_noop :
    howler_destroy none = some [] ∧
      ∀ n : Nat, (List.replicate n (none : Option howler_context)).map howler_destroy =
        List.replicate n (some []) := by
  refine ⟨rfl, fun n => ?_⟩
  simp [howler_destroy]

/-- C12. Open failures are tolerated: with session start and listing succeeding,
`howler_init` returns `HOWLER_SUCCESS` whatever `libusb_open` returns; the open
is attempted on every family member of the list, in list order, also after a
failed open; and the trace holds one warning, right after the open, for each
family member whose open returned `LIBUSB_ERROR_ACCESS`, and no other. -/
theorem init_tolerates_open_failures (hh : HowlerH) (w : UsbWorld) (ctx_ptr : Nat)
    (devs : List libusb_device) (hp : ctx_ptr ≠ 0) (hi : w.init_status = 0)
    (hl : w.device_list = .listed devs) :
    ∃ r, howler_init hh w ctx_ptr = .ok r ∧ r.ret = hh.HOWLER_SUCCESS ∧
      r.trace =
        [.libusb_init, .libusb_set_debug w.usb_ctx 3, .libusb_get_device_list w.usb_ctx] ++
          open_calls hh w devs 0 ++ [.libusb_free_device_list 1] ∧
      open_attempts r.trace =
        (devs.enum.filter (fun p => decide (is_howler hh p.2 = 1))).map (fun p => p.1) ∧
      warnings r.trace =
        devs.enum.countP
          (fun p => decide (is_howler hh p.2 = 1) &&
            decide (w.open_status p.1 = LIBUSB_ERROR_ACCESS)) := by
  obtain ⟨howlers, lost, h1, _, _⟩ := howler_init_listed_trace hh w ctx_ptr devs hp hi hl
  refine ⟨_, h1, rfl, rfl, ?_, ?_⟩
  · simp only [open_attempts_append, open_attempts_open_calls, List.enum]
    simp [open_attempts]
  · have hw := warnings_open_calls hh w devs 0
    unfold warnings at hw ⊢
    simp only [List.count_append, hw, List.enum]
    simp [List.count_cons]

/-- C12, at a concrete world: the third device cannot be opened (access
denied); the fourth is opened all the same and there is one warning. -/
theorem init_tolerates_open_failures_witness :
    ∃ r, howler_init hh_example world_example 1 = .ok r ∧ r.ret = 0 ∧
      open_attempts r.trace = [0, 2, 3] ∧ warnings r.trace = 1 := by
  obtain ⟨r, h1, h2, _, h4, h5⟩ := init_tolerates_open_failures hh_example world_example 1
    [⟨10, ⟨0x3EB, 0x6800⟩⟩, ⟨11, ⟨0x46D, 0x6800⟩⟩, ⟨12, ⟨0x3EB, 0x6801⟩⟩, ⟨13, ⟨0x3EB, 0x6801⟩⟩]
    (by decide) rfl rfl
  exact ⟨r, h1, h2, h4.trans (by decide), h5.trans (by decide)⟩

/-- C13. When the listing fails after the session was started, `howler_init`
returns `HOWLER_ERROR_LIBUSB_DEVICE_LIST_ERROR` with `*ctx_ptr` set to `NULL`;
it has called `libusb_exit` exactly once, on the session's context and as its
last call, and has opened no device. -/
theorem init_listing_fails (hh : HowlerH) (w : UsbWorld) (ctx_ptr : Nat) (code : Int)
    (hp : ctx_ptr ≠ 0) (hi : w.init_status = 0) (hl : w.device_list = .failed code)
    (_hneg : code < 0) :
    ∃ r, howler_init hh w ctx_ptr = .ok r ∧
      r.ret = hh.HOWLER_ERROR_LIBUSB_DEVICE_LIST_ERROR ∧ r.ctx = none ∧
      r.trace = [.libusb_init, .libusb_set_debug w.usb_ctx 3,
        .libusb_get_device_list w.usb_ctx, .libusb_exit w.usb_ctx] ∧
      r.trace.countP SessionCall.isExit = 1 ∧
      r.trace.count (.libusb_exit w.usb_ctx) = 1 ∧
      open_attempts r.trace = [] := by
  refine ⟨⟨hh.HOWLER_ERROR_LIBUSB_DEVICE_LIST_ERROR, none,
    [.libusb_init, .libusb_set_debug w.usb_ctx 3, .libusb_get_device_list w.usb_ctx,
      .libusb_exit w.usb_ctx], []⟩, ?_, rfl, rfl, rfl, ?_, ?_, ?_⟩
  · unfold howler_init
    simp [hp, hi, hl]
  · simp [List.countP_cons, SessionCall.isExit]
  · simp [List.count_cons]
  · simp [open_attempts]

/-- C13, at a concrete world whose listing fails with -99. -/
theorem init_listing_fails_witness :
    ∃ r, howler_init hh_example world_list_fails 1 = .ok r ∧ r.ret = -3 ∧ r.ctx = none ∧
      r.trace = [.libusb_init, .libusb_set_debug 50 3, .libusb_get_device_list 50,
        .libusb_exit 50] := by
  obtain ⟨r, h1, h2, h3, h4, _⟩ := init_listing_fails hh_example world_list_fails 1 (-99)
    (by decide) rfl rfl (by decide)
  exact ⟨r, h1, h2, h3, h4⟩

/-- C14. Discovery order without duplicates: the entries `devices[0..nDevices)`
of the registry returned by `howler_init` are, in list order, the entries made
from the list positions that hold a family member whose open succeeded; these
positions increase strictly, so no position yields two entries, and the
devices of the entries form a sublist of the device list. -/
theorem init_registry_order (hh : HowlerH) (w : UsbWorld) (ctx_ptr : Nat)
    (devs : List libusb_device) (hp : ctx_ptr ≠ 0) (hi : w.init_status = 0)
    (hl : w.device_list = .listed devs) :
    ∃ r reg, howler_init hh w ctx_ptr = .ok r ∧ r.ctx = some reg ∧
      reg.devices.take reg.nDevices =
        (devs.enum.filter
            (fun p => decide (is_howler hh p.2 = 1) && decide (0 ≤ w.open_status p.1))).map
          (fun p => some ⟨p.2, w.open_handle p.1, List.replicate 6 0⟩) ∧
      ((devs.enum.filter
            (fun p => decide (is_howler hh p.2 = 1) && decide (0 ≤ w.open_status p.1))).map
          (fun p => p.1)).Pairwise (fun a b => a < b) ∧
      List.Sublist
        ((reg.devices.take reg.nDevices).filterMap
          (fun o => o.map (fun e => e.usb_device))) devs := by
  obtain ⟨howlers, tr, lost, h1, h2⟩ := howler_init_listed hh w ctx_ptr devs hp hi hl
  have hopened := opened_eq_filter hh w devs 0
  have htake : howlers.take (opened hh w devs 0).length =
      (devs.enum.filter
          (fun p => decide (is_howler hh p.2 = 1) && decide (0 ≤ w.open_status p.1))).map
        (fun p => some ⟨p.2, w.open_handle p.1, List.replicate 6 0⟩) := by
    rw [h2, hopened, List.map_map]
    rfl
  refine ⟨_, _, h1, rfl, htake, ?_, ?_⟩
  · have hsub : List.Sublist
        ((devs.enum.filter
          (fun p => decide (is_howler hh p.2 = 1) && decide (0 ≤ w.open_status p.1))).map
            (fun p => p.1))
        (devs.enum.map (fun p => p.1)) := List.Sublist.map _ (List.filter_sublist _)
    refine List.Pairwise.sublist hsub ?_
    have : devs.enum.map (fun p => p.1) = List.range devs.length := by
      simp [List.enum_map_fst]
    rw [this]
    exact List.pairwise_lt_range devs.length
  · simp only
    rw [htake]
    have hdevs : (List.filterMap (fun o => Option.map (fun e => e.usb_device) o)
        ((devs.enum.filter
          (fun p => decide (is_howler hh p.2 = 1) && decide (0 ≤ w.open_status p.1))).map
            (fun p => some (⟨p.2, w.open_handle p.1, List.replicate 6 0⟩ : howler_device)))) =
        (devs.enum.filter
          (fun p => decide (is_howler hh p.2 = 1) && decide (0 ≤ w.open_status p.1))).map
            (fun p => p.2) := by
      rw [List.filterMap_map]
      exact congrFun (List.filterMap_eq_map (fun p : Nat × libusb_device => p.2)) _
    rw [hdevs]
    have hsub : List.Sublist
        ((devs.enum.filter
          (fun p => decide (is_howler hh p.2 = 1) && decide (0 ≤ w.open_status p.1))).map
            (fun p => p.2))
        (devs.enum.map (fun p => p.2)) := List.Sublist.map _ (List.filter_sublist _)
    have : devs.enum.map (fun p => p.2) = devs := by
      simp [List.enum_map_snd]
    rwa [this] at hsub

/-- C14, at a concrete world: the entries come from list positions 0 and 3,
in that order. -/
theorem init_registry_order_witness :
    ∃ r reg, howler_init hh_example world_example 1 = .ok r ∧ r.ctx = some reg ∧
      reg.devices.take reg.nDevices =
        [some ⟨⟨10, ⟨0x3EB, 0x6800⟩⟩, 100, List.replicate 6 0⟩,
         some ⟨⟨13, ⟨0x3EB, 0x6801⟩⟩, 103, List.replicate 6 0⟩] := by
  obtain ⟨r, reg, h1, h2, h3, _⟩ := init_registry_order hh_example world_example 1
    [⟨10, ⟨0x3EB, 0x6800⟩⟩, ⟨11, ⟨0x46D, 0x6800⟩⟩, ⟨12, ⟨0x3EB, 0x6801⟩⟩, ⟨13, ⟨0x3EB, 0x6801⟩⟩]
    (by decide) rfl rfl
  exact ⟨r, reg, h1, h2, h3.trans (by decide)⟩

/-- C15. Every entry visible in the registry returned by `howler_init` is fully
initialised: for each index `j` below `nDevices` there is a list position
holding a family member whose open succeeded, and slot `j` holds an entry with
that device, the handle that open stored, and six LED banks all zero. No entry
below `nDevices` is unwritten or made from a failed open. -/
theorem init_entries_initialised (hh : HowlerH) (w : UsbWorld) (ctx_ptr : Nat)
    (devs : List libusb_device) (hp : ctx_ptr ≠ 0) (hi : w.init_status = 0)
    (hl : w.device_list = .listed devs) :
    ∃ r reg, howler_init hh w ctx_ptr = .ok r ∧ r.ctx = some reg ∧
      ∀ j, j < reg.nDevices →
        ∃ i d e, devs[i]? = some d ∧ is_howler hh d = 1 ∧ 0 ≤ w.open_status i ∧
          reg.devices[j]? = some (some e) ∧ e.usb_device = d ∧
          e.usb_handle = w.open_handle i ∧ e.led_banks = [0, 0, 0, 0, 0, 0] := by
  obtain ⟨howlers, tr, lost, h1, h2⟩ := howler_init_listed hh w ctx_ptr devs hp hi hl
  refine ⟨_, _, h1, rfl, ?_⟩
  intro j hj
  simp only at hj
  have hmem : (opened hh w devs 0)[j] ∈ opened hh w devs 0 := List.getElem_mem hj
  obtain ⟨k, d, e1, e2, e3, e4⟩ := mem_opened hh w devs 0 _ hmem
  refine ⟨k, d, (opened hh w devs 0)[j], e1, e2, by simpa using e3, ?_, ?_, ?_, ?_⟩
  · have h3 : (howlers.take (opened hh w devs 0).length)[j]? = howlers[j]? := by
      rw [List.getElem?_take]
      simp [hj]
    simp only
    rw [← h3, h2]
    simp [List.getElem?_eq_getElem hj]
  · rw [e4]
  · rw [e4]
    simp
  · rw [e4]
    rfl

/-- C15, at a concrete world: every slot below `nDevices` holds an entry with
six zero LED banks. -/
theorem init_entries_initialised_witness :
    ∃ r reg, howler_init hh_example world_example 1 = .ok r ∧ r.ctx = some reg ∧
      ∀ j, j < reg.nDevices →
        ∃ e, reg.devices[j]? = some (some e) ∧ e.led_banks = [0, 0, 0, 0, 0, 0] := by
  obtain ⟨r, reg, h1, h2, h3⟩ := init_entries_initialised hh_example world_example 1
    [⟨10, ⟨0x3EB, 0x6800⟩⟩, ⟨11, ⟨0x46D, 0x6800⟩⟩, ⟨12, ⟨0x3EB, 0x6801⟩⟩, ⟨13, ⟨0x3EB, 0x6801⟩⟩]
    (by decide) rfl rfl
  refine ⟨r, reg, h1, h2, fun j hj => ?_⟩
  obtain ⟨i, d, e, _, _, _, e4, _, _, e7⟩ := h3 j hj
  exact ⟨e, e4, e7⟩

/-- C16. When no listed device is a family member (the empty list included),
`howler_init` returns `HOWLER_SUCCESS` with a registry of size 0, having
attempted no `libusb_open`; and on every successful listing, with or without
family members, it releases the device list exactly once, as its last call,
and does not call `libusb_exit`. -/
theorem init_no_family_member (hh : HowlerH) (w : UsbWorld) (ctx_ptr : Nat)
    (devs : List libusb_device) (hp : ctx_ptr ≠ 0) (hi : w.init_status = 0)
    (hl : w.device_list = .listed devs) :
    ∃ r, howler_init hh w ctx_ptr = .ok r ∧ r.ret = hh.HOWLER_SUCCESS ∧
      r.trace.count (.libusb_free_device_list 1) = 1 ∧
      r.trace.getLast? = some (.libusb_free_device_list 1) ∧
      r.trace.countP SessionCall.isExit = 0 ∧
      ((∀ d ∈ devs, is_howler hh d = 0) →
        r.ctx = some ⟨w.usb_ctx, 0, []⟩ ∧
        r.trace = [.libusb_init, .libusb_set_debug w.usb_ctx 3,
          .libusb_get_device_list w.usb_ctx, .libusb_free_device_list 1] ∧
        open_attempts r.trace = []) := by
  obtain ⟨howlers, lost, h1, h2, h3⟩ := howler_init_listed_trace hh w ctx_ptr devs hp hi hl
  have hkinds := open_calls_kinds hh w devs 0
  have hfree : (open_calls hh w devs 0).count (.libusb_free_device_list 1) = 0 := by
    rw [List.count_eq_zero]
    intro hmem
    rcases hkinds _ hmem with h | ⟨k, d, _, _, h⟩ <;> cases h
  have hexit : (open_calls hh w devs 0).countP SessionCall.isExit = 0 := by
    rw [List.countP_eq_zero]
    intro c hmem
    rcases hkinds c hmem with h | ⟨k, d, _, _, h⟩ <;> subst h <;> simp [SessionCall.isExit]
  refine ⟨_, h1, rfl, ?_, ?_, ?_, ?_⟩
  · simp only [List.count_append, hfree]
    simp [List.count_cons]
  · exact List.getLast?_concat _
  · simp only [List.countP_append, hexit]
    simp [List.countP_cons, SessionCall.isExit]
  · intro hno
    obtain ⟨hc, ho⟩ := open_calls_no_member hh w devs 0 hno
    have hcount : devs.countP (fun d => decide (is_howler hh d = 1)) = 0 := by
      rw [List.countP_eq_zero]
      intro d hd
      simp [hno d hd]
    have hnil : howlers = [] := List.length_eq_zero.mp (h3.trans hcount)
    refine ⟨?_, ?_, ?_⟩
    · simp [ho, hnil]
    · simp [hc]
    · simp [hc, open_attempts]

/-- C16, at a concrete world: two devices listed, neither a family member. -/
theorem init_no_family_member_witness :
    ∃ r, howler_init hh_example world_no_howler 1 = .ok r ∧ r.ret = 0 ∧
      r.ctx = some ⟨50, 0, []⟩ ∧
      r.trace = [.libusb_init, .libusb_set_debug 50 3, .libusb_get_device_list 50,
        .libusb_free_device_list 1] := by
  obtain ⟨r, h1, h2, _, _, _, h6⟩ := init_no_family_member hh_example world_no_howler 1
    [⟨20, ⟨0x46D, 0x6800⟩⟩, ⟨21, ⟨0x3EB, 0x1234⟩⟩] (by decide) rfl rfl
  obtain ⟨h7, h8, _⟩ := h6 (by decide)
  exact ⟨r, h1, h2, h7, h8⟩

/-- C20. The two assertions of `howler_init` never fail and the write into
`howlers` stays inside the array: `howler_init` returns on every world, and
the second loop, entered as lines 95-96 enter it, returns with
`howler_idx == nHowlers`, the final `nHowlers` being the count of the first
pass less one for every failed open. -/
theorem init_asserts_hold (hh : HowlerH) (w : UsbWorld) (ctx_ptr : Nat) :
    (∃ r, howler_init hh w ctx_ptr = .ok r) ∧
      ∀ (devs : List libusb_device) (tr : List SessionCall),
        ∃ s, open_loop hh w devs 0
            ⟨count_howlers hh devs 0, 0, List.replicate (count_howlers hh devs 0) none, tr⟩ =
            .ok s ∧
          s.howler_idx = s.nHowlers ∧
          s.howlers.length = count_howlers hh devs 0 ∧
          s.nHowlers +
              devs.enum.countP
                (fun p => decide (is_howler hh p.2 = 1) && decide (w.open_status p.1 < 0)) =
            count_howlers hh devs 0 := by
  constructor
  · by_cases hp : ctx_ptr = 0
    · exact ⟨⟨hh.HOWLER_ERROR_INVALID_PTR, none, [], []⟩, by simp [howler_init, hp]⟩
    · by_cases hi : w.init_status = 0
      · cases hl : w.device_list with
        | failed code =>
            exact ⟨⟨hh.HOWLER_ERROR_LIBUSB_DEVICE_LIST_ERROR, none,
              [.libusb_init, .libusb_set_debug w.usb_ctx 3, .libusb_get_device_list w.usb_ctx,
                .libusb_exit w.usb_ctx], []⟩, by simp [howler_init, hp, hi, hl]⟩
        | listed devs =>
            obtain ⟨howlers, tr, lost, h1, _⟩ := howler_init_listed hh w ctx_ptr devs hp hi hl
            exact ⟨_, h1⟩
      · exact ⟨⟨hh.HOWLER_ERROR_LIBUSB_CONTEXT_ERROR, none, [.libusb_init], []⟩,
          by simp [howler_init, hp, hi]⟩
  · intro devs tr
    obtain ⟨s, h1, h2, h3, h4, _⟩ := open_loop_ok hh w devs 0
      ⟨count_howlers hh devs 0, 0, List.replicate (count_howlers hh devs 0) none, tr⟩
      (by simp [count_howlers_eq]) (by simp)
    refine ⟨s, h1, h3.symm, by simpa using h4, ?_⟩
    have hsum := opened_add_failed hh w devs 0
    simp only [Nat.zero_add] at h2
    rw [h3, h2, count_howlers_eq, List.enum]
    omega

/-- C17. Write failure: when the claim succeeds and the write returns a
negative status, the write (endpoint `0x02`, 24 bytes, the command buffer) is
the only interrupt transfer, no read is attempted even with an output buffer,
the interface is released exactly once, the kernel driver is reattached once if
it was detached in this call and not otherwise, and the write's status is the
value returned. -/
theorem sendrcv_write_fails (usb : Transport) (dev : howler_device)
    (cmd_buf output : Nat)
    (hq : 0 ≤ usb (call_query dev.usb_handle))
    (hd : usb (call_query dev.usb_handle) ≠ 0 → 0 ≤ usb (call_detach dev.usb_handle))
    (hc : 0 ≤ usb (call_claim dev.usb_handle))
    (hw : usb (call_write dev.usb_handle cmd_buf) < 0) :
    transfers (howler_sendrcv usb dev cmd_buf output).trace =
        [(0x02, cmd_buf, 24, usb (call_write dev.usb_handle cmd_buf))] ∧
      reads (howler_sendrcv usb dev cmd_buf output).trace = [] ∧
      releases (howler_sendrcv usb dev cmd_buf output).trace = 1 ∧
      attaches (howler_sendrcv usb dev cmd_buf output).trace =
        (if detached (howler_sendrcv usb dev cmd_buf output).trace then 1 else 0) ∧
      (howler_sendrcv usb dev cmd_buf output).ret = usb (call_write dev.usb_handle cmd_buf) := by
  have hp := sendrcv_path usb dev cmd_buf output
  generalize howler_sendrcv usb dev cmd_buf output = r at hp ⊢
  unfold SendRcvPath ClaimPath at hp
  simp only [call_query, call_detach, call_claim, call_write, call_read, call_release,
    call_attach, Transport.ev] at hp hq hd hc hw ⊢
  rcases hp with ⟨pq, rfl⟩ | ⟨pq, pd, rfl⟩ | ⟨pre, body, kda, ok, err, hpre, hbody, rfl⟩
  · omega
  · have := hd (by omega); omega
  · rcases hpre with ⟨pq, rfl, rfl⟩ | ⟨pq, pd, rfl, rfl⟩ <;>
    rcases hbody with ⟨pc, rfl, rfl, rfl⟩ | ⟨pc, rfl, ⟨pw, rfl, rfl⟩ | ⟨pw, po, rfl, rfl⟩ |
      ⟨pw, po, h81, rfl, rfl⟩ | ⟨pw, po, h81, h83, rfl, rfl⟩ | ⟨pw, po, h81, h83, rfl, rfl⟩⟩ <;>
    first
      | omega
      | (simp [reads, transfers, releases, attaches, detached, UsbCall.isRelease,
          UsbCall.isAttach, UsbCall.isDetach, List.countP_cons] <;> (try split_ifs) <;> omega)

/-- C17, at a concrete exchange: the driver is detached, the write fails with
-9 and an output buffer is given. -/
theorem sendrcv_write_fails_witness :
    transfers (howler_sendrcv (Transport.ofStatuses 1 0 0 (-9) 0 0 0 0 0) dev7 100 200).trace =
        [(0x02, 100, 24, -9)] ∧
      (howler_sendrcv (Transport.ofStatuses 1 0 0 (-9) 0 0 0 0 0) dev7 100 200).ret = -9 :=
  have h := sendrcv_write_fails (Transport.ofStatuses 1 0 0 (-9) 0 0 0 0 0) dev7 100 200
    (by decide) (by decide) (by decide) (by decide)
  ⟨h.1, h.2.2.2.2⟩

/-- C18. Failures before the claim: when the kernel-driver query returns a
negative status it is the only call made; when the query reports an active
driver and the detach returns a negative status, the query and the detach are
the only calls made. In both cases the trace holds no claim, transfer, release
or reattach, and the value returned is not 0. -/
theorem sendrcv_early_failures (usb : Transport) (dev : howler_device)
    (cmd_buf output : Nat) :
    (usb (call_query dev.usb_handle) < 0 →
        (howler_sendrcv usb dev cmd_buf output).trace = [usb.ev (call_query dev.usb_handle)] ∧
        (howler_sendrcv usb dev cmd_buf output).ret ≠ 0) ∧
      (0 < usb (call_query dev.usb_handle) → usb (call_detach dev.usb_handle) < 0 →
        (howler_sendrcv usb dev cmd_buf output).trace =
          [usb.ev (call_query dev.usb_handle), usb.ev (call_detach dev.usb_handle)] ∧
        (howler_sendrcv usb dev cmd_buf output).ret ≠ 0) ∧
      ((usb (call_query dev.usb_handle) < 0 ∨
          (0 < usb (call_query dev.usb_handle) ∧ usb (call_detach dev.usb_handle) < 0)) →
        ∀ e ∈ (howler_sendrcv usb dev cmd_buf output).trace,
          e.call.isClaim = false ∧ e.call.isTransfer = false ∧ e.call.isRelease = false ∧
            e.call.isAttach = false) := by
  have key : (usb (call_query dev.usb_handle) < 0 →
        howler_sendrcv usb dev cmd_buf output = ⟨-1, [usb.ev (call_query dev.usb_handle)]⟩) ∧
      (0 < usb (call_query dev.usb_handle) → usb (call_detach dev.usb_handle) < 0 →
        howler_sendrcv usb dev cmd_buf output =
          ⟨-1, [usb.ev (call_query dev.usb_handle), usb.ev (call_detach dev.usb_handle)]⟩) := by
    constructor
    · intro h
      simp only [call_query] at h
      simp [howler_sendrcv, h, Transport.ev, call_query]
    · intro h1 h2
      simp only [call_query, call_detach] at h1 h2
      have h3 : ¬ usb (.libusb_kernel_driver_active dev.usb_handle 0) < 0 := by omega
      have h4 : usb (.libusb_kernel_driver_active dev.usb_handle 0) ≠ 0 := by omega
      simp [howler_sendrcv, h2, h3, h4, Transport.ev, call_query, call_detach]
  refine ⟨fun h => ?_, fun h1 h2 => ?_, fun h e he => ?_⟩
  · rw [key.1 h]
    exact ⟨rfl, by simp⟩
  · rw [key.2 h1 h2]
    exact ⟨rfl, by simp⟩
  · rcases h with h | ⟨h1, h2⟩
    · rw [key.1 h] at he
      simp only [List.mem_singleton] at he
      subst he
      simp [Transport.ev, call_query, UsbCall.isClaim, UsbCall.isTransfer, UsbCall.isRelease,
        UsbCall.isAttach]
    · rw [key.2 h1 h2] at he
      simp only [List.mem_cons, List.mem_singleton, List.not_mem_nil, or_false] at he
      rcases he with rfl | rfl <;>
        simp [Transport.ev, call_query, call_detach, UsbCall.isClaim, UsbCall.isTransfer,
          UsbCall.isRelease, UsbCall.isAttach]

/-- C18, at concrete exchanges: a query failing with -4, and a detach failing
with -5 after the query reported an active driver. -/
theorem sendrcv_early_failures_witness :
    (howler_sendrcv (Transport.ofStatuses (-4) 0 0 0 0 0 0 0 0) dev7 100 200).trace =
        [⟨.libusb_kernel_driver_active 7 0, -4⟩] ∧
      (howler_sendrcv (Transport.ofStatuses 1 (-5) 0 0 0 0 0 0 0) dev7 100 200).trace =
        [⟨.libusb_kernel_driver_active 7 0, 1⟩, ⟨.libusb_detach_kernel_driver 7 0, -5⟩] :=
  ⟨((sendrcv_early_failures (Transport.ofStatuses (-4) 0 0 0 0 0 0 0 0) dev7 100 200).1
      (by decide)).1,
   ((sendrcv_early_failures (Transport.ofStatuses 1 (-5) 0 0 0 0 0 0 0) dev7 100 200).2.1
      (by decide) (by decide)).1⟩

theorem precedes_of_phase (p q : UsbCall → Bool) (a b : Nat) (tr : List UsbEvent)
    (hab : a < b) (hp : ∀ c, p c = true → c.phase ≤ a) (hq : ∀ c, q c = true → b ≤ c.phase)
    (h : (tr.map (fun e => e.call.phase)).Pairwise (fun x y => x ≤ y)) :
    precedes p q tr := by
  intro i j e1 e2 h1 h2 hp1 hq2
  obtain ⟨hi, rfl⟩ := List.getElem?_eq_some_iff.mp h1
  obtain ⟨hj, rfl⟩ := List.getElem?_eq_some_iff.mp h2
  have ha := hp _ hp1
  have hb := hq _ hq2
  rcases Nat.lt_trichotomy i j with hlt | heq | hgt
  · exact hlt
  · subst heq
    omega
  · have := List.pairwise_iff_getElem.mp h j i (by simpa using hj) (by simpa using hi) hgt
    simp only [List.getElem_map] at this
    omega

/-- The stages of the calls of an exchange never go back. -/
theorem sendrcv_phases (usb : Transport) (dev : howler_device) (cmd_buf output : Nat) :
    ((howler_sendrcv usb dev cmd_buf output).trace.map (fun e => e.call.phase)).Pairwise
      (fun x y => x ≤ y) := by
  have hp := sendrcv_path usb dev cmd_buf output
  generalize howler_sendrcv usb dev cmd_buf output = r at hp ⊢
  unfold SendRcvPath ClaimPath at hp
  simp only [call_query, call_detach, call_claim, call_write, call_read, call_release,
    call_attach, Transport.ev] at hp
  rcases hp with ⟨pq, rfl⟩ | ⟨pq, pd, rfl⟩ | ⟨pre, body, kda, ok, err, hpre, hbody, rfl⟩
  · simp [UsbCall.phase]
  · simp [UsbCall.phase]
  · rcases hpre with ⟨pq, rfl, rfl⟩ | ⟨pq, pd, rfl, rfl⟩ <;>
    rcases hbody with ⟨pc, rfl, rfl, rfl⟩ | ⟨pc, rfl, ⟨pw, rfl, rfl⟩ | ⟨pw, po, rfl, rfl⟩ |
      ⟨pw, po, h81, rfl, rfl⟩ | ⟨pw, po, h81, h83, rfl, rfl⟩ | ⟨pw, po, h81, h83, rfl, rfl⟩⟩ <;>
    simp [UsbCall.phase]

/-- An exchange makes at most one write. -/
theorem sendrcv_one_write (usb : Transport) (dev : howler_device) (cmd_buf output : Nat) :
    (howler_sendrcv usb dev cmd_buf output).trace.countP (fun e => e.call.isWrite) ≤ 1 := by
  have hp := sendrcv_path usb dev cmd_buf output
  generalize howler_sendrcv usb dev cmd_buf output = r at hp ⊢
  unfold SendRcvPath ClaimPath at hp
  simp only [call_query, call_detach, call_claim, call_write, call_read, call_release,
    call_attach, Transport.ev] at hp
  rcases hp with ⟨pq, rfl⟩ | ⟨pq, pd, rfl⟩ | ⟨pre, body, kda, ok, err, hpre, hbody, rfl⟩
  · simp [UsbCall.isWrite, List.countP_cons]
  · simp [UsbCall.isWrite, List.countP_cons]
  · rcases hpre with ⟨pq, rfl, rfl⟩ | ⟨pq, pd, rfl, rfl⟩ <;>
    rcases hbody with ⟨pc, rfl, rfl, rfl⟩ | ⟨pc, rfl, ⟨pw, rfl, rfl⟩ | ⟨pw, po, rfl, rfl⟩ |
      ⟨pw, po, h81, rfl, rfl⟩ | ⟨pw, po, h81, h83, rfl, rfl⟩ | ⟨pw, po, h81, h83, rfl, rfl⟩⟩ <;>
    simp [UsbCall.isWrite, List.countP_cons]

theorem sendrcv_transfer_kinds_all (usb : Transport) (dev : howler_device)
    (cmd_buf output : Nat) :
    (howler_sendrcv usb dev cmd_buf output).trace.all
      (fun e => !e.call.isTransfer || (e.call.isWrite || e.call.isRead)) = true := by
  have hp := sendrcv_path usb dev cmd_buf output
  generalize howler_sendrcv usb dev cmd_buf output = r at hp ⊢
  unfold SendRcvPath ClaimPath at hp
  simp only [call_query, call_detach, call_claim, call_write, call_read, call_release,
    call_attach, Transport.ev] at hp
  rcases hp with ⟨pq, rfl⟩ | ⟨pq, pd, rfl⟩ | ⟨pre, body, kda, ok, err, hpre, hbody, rfl⟩
  · rfl
  · rfl
  · rcases hpre with ⟨pq, rfl, rfl⟩ | ⟨pq, pd, rfl, rfl⟩ <;>
    rcases hbody with ⟨pc, rfl, rfl, rfl⟩ | ⟨pc, rfl, ⟨pw, rfl, rfl⟩ | ⟨pw, po, rfl, rfl⟩ |
      ⟨pw, po, h81, rfl, rfl⟩ | ⟨pw, po, h81, h83, rfl, rfl⟩ | ⟨pw, po, h81, h83, rfl, rfl⟩⟩ <;>
    rfl

/-- Every interrupt transfer of an exchange is the write or a read. -/
theorem sendrcv_transfer_kinds (usb : Transport) (dev : howler_device)
    (cmd_buf output : Nat) :
    ∀ e ∈ (howler_sendrcv usb dev cmd_buf output).trace,
      e.call.isTransfer = true → e.call.isWrite = true ∨ e.call.isRead = true := by
  intro e he ht
  have h := List.all_eq_true.mp (sendrcv_transfer_kinds_all usb dev cmd_buf output) e he
  simpa [ht] using h

/-- C19. Call ordering in every exchange: the detach comes before the claim,
the claim before the write, the write before every read, every interrupt
transfer before the release, and the release before the reattach; there is at
most one write, every interrupt transfer is the write or a read, and the
detach comes before the reattach and the claim before the release, so the
detach/reattach pair brackets the claim/release pair. -/
theorem sendrcv_call_order (usb : Transport) (dev : howler_device) (cmd_buf output : Nat) :
    precedes UsbCall.isDetach UsbCall.isClaim (howler_sendrcv usb dev cmd_buf output).trace ∧
      precedes UsbCall.isClaim UsbCall.isWrite (howler_sendrcv usb dev cmd_buf output).trace ∧
      precedes UsbCall.isWrite UsbCall.isRead (howler_sendrcv usb dev cmd_buf output).trace ∧
      precedes UsbCall.isTransfer UsbCall.isRelease
        (howler_sendrcv usb dev cmd_buf output).trace ∧
      precedes UsbCall.isRelease UsbCall.isAttach
        (howler_sendrcv usb dev cmd_buf output).trace ∧
      precedes UsbCall.isDetach UsbCall.isAttach
        (howler_sendrcv usb dev cmd_buf output).trace ∧
      precedes UsbCall.isClaim UsbCall.isRelease
        (howler_sendrcv usb dev cmd_buf output).trace ∧
      (howler_sendrcv usb dev cmd_buf output).trace.countP (fun e => e.call.isWrite) ≤ 1 ∧
      ∀ e ∈ (howler_sendrcv usb dev cmd_buf output).trace,
        e.call.isTransfer = true → e.call.isWrite = true ∨ e.call.isRead = true := by
  have hph := sendrcv_phases usb dev cmd_buf output
  have pDetach : ∀ c : UsbCall, c.isDetach = true → c.phase = 1 := by
    intro c; cases c <;> simp [UsbCall.isDetach, UsbCall.phase]
  have pClaim : ∀ c : UsbCall, c.isClaim = true → c.phase = 2 := by
    intro c; cases c <;> simp [UsbCall.isClaim, UsbCall.phase]
  have pWrite : ∀ c : UsbCall, c.isWrite = true → c.phase = 3 := by
    intro c; cases c <;> simp [UsbCall.isWrite, UsbCall.phase]
  have pRead : ∀ c : UsbCall, c.isRead = true → c.phase = 4 := by
    intro c; cases c <;> simp [UsbCall.isRead, UsbCall.phase]
    intro h; omega
  have pTransfer : ∀ c : UsbCall, c.isTransfer = true → c.phase ≤ 4 := by
    intro c; cases c <;> simp [UsbCall.isTransfer, UsbCall.phase]
    split_ifs <;> omega
  have pRelease : ∀ c : UsbCall, c.isRelease = true → c.phase = 5 := by
    intro c; cases c <;> simp [UsbCall.isRelease, UsbCall.phase]
  have pAttach : ∀ c : UsbCall, c.isAttach = true → c.phase = 6 := by
    intro c; cases c <;> simp [UsbCall.isAttach, UsbCall.phase]
  refine ⟨precedes_of_phase _ _ 1 2 _ (by omega) (fun c h => (pDetach c h).le)
      (fun c h => (pClaim c h).ge) hph,
    precedes_of_phase _ _ 2 3 _ (by omega) (fun c h => (pClaim c h).le)
      (fun c h => (pWrite c h).ge) hph,
    precedes_of_phase _ _ 3 4 _ (by omega) (fun c h => (pWrite c h).le)
      (fun c h => (pRead c h).ge) hph,
    precedes_of_phase _ _ 4 5 _ (by omega) pTransfer (fun c h => (pRelease c h).ge) hph,
    precedes_of_phase _ _ 5 6 _ (by omega) (fun c h => (pRelease c h).le)
      (fun c h => (pAttach c h).ge) hph,
    precedes_of_phase _ _ 1 6 _ (by omega) (fun c h => (pDetach c h).le)
      (fun c h => (pAttach c h).ge) hph,
    precedes_of_phase _ _ 2 5 _ (by omega) (fun c h => (pClaim c h).le)
      (fun c h => (pRelease c h).ge) hph,
    sendrcv_one_write usb dev cmd_buf output, sendrcv_transfer_kinds usb dev cmd_buf output⟩

end Howler
